import Mathlib

/-!
A verification development for the Letta tool bridge of the Godot learning
app (`src/letta/tools.py`, with the multi-agent default address from
`src/letta/setup_agents.py`).

The ten tool handlers are shallowly embedded as Lean functions.  Python's
`json` standard library (used by the handlers via `json.loads`, `json.dumps`
and `response.json()`) is modelled by an executable JSON value type with a
pretty-printer (`dumps`, mirroring `json.dumps(v, indent=2)`: two-space
indentation, `", "`-free item separator `",\n"`, key separator `": "`) and a
recursive-descent parser (`loads`).  JSON numbers are modelled as integers
(the payloads in this repository carry no fractional numbers); object fields
are kept in order, as Python dicts preserve insertion order.  The parser
keeps duplicate object keys in order of appearance (Python keeps the last
binding; strings produced by `dumps` from a Python dict never contain
duplicate keys, so the two conventions agree on every round trip).

HTTP transport (`requests.get` / `requests.post`) is modelled by an
environment mapping a request to an outcome: either a response (status code
plus body text) or a raised exception carrying its text.  `response.ok` is
`status_code < 400`, as in `requests`.  Each handler returns its result
string together with the list of HTTP requests it issued.
-/

namespace GodotApp

/-- JSON values, as produced by Python's `json.loads`:  numbers are modelled
as integers, and object fields are an ordered association list. -/
inductive Json where
  | null : Json
  | bool (b : Bool) : Json
  | num (n : Int) : Json
  | str (s : String) : Json
  | arr (elts : List Json) : Json
  | obj (fields : List (String × Json)) : Json

/-- The opening-brace character, kept out of literals. -/
def lbrace : Char := Char.ofNat 123

/-- The closing-brace character, kept out of literals. -/
def rbrace : Char := Char.ofNat 125

/-- JSON insignificant whitespace (RFC 8259): space, tab, line feed,
carriage return. -/
def isWs (c : Char) : Bool := c = ' ' || c = '\t' || c = '\n' || c = '\r'

/-- Decimal digit characters. -/
def isDigitChar (c : Char) : Bool := 48 ≤ c.toNat && c.toNat ≤ 57

/-- The character for a decimal digit value. -/
def digitChar (d : Nat) : Char :=
  match d with
  | 0 => '0' | 1 => '1' | 2 => '2' | 3 => '3' | 4 => '4'
  | 5 => '5' | 6 => '6' | 7 => '7' | 8 => '8' | _ => '9'

/-- The lowercase character for a hexadecimal digit value, as Python's
`json.dumps` writes `\u00xx` escapes in lowercase. -/
def hexDigitChar (d : Nat) : Char :=
  match d with
  | 0 => '0' | 1 => '1' | 2 => '2' | 3 => '3' | 4 => '4'
  | 5 => '5' | 6 => '6' | 7 => '7' | 8 => '8' | 9 => '9'
  | 10 => 'a' | 11 => 'b' | 12 => 'c' | 13 => 'd' | 14 => 'e' | _ => 'f'

/-- Big-endian decimal digits of a natural number, with enough fuel.
Fuel-based structural recursion keeps the definition kernel-reducible. -/
def natDigitsAux : Nat → Nat → List Char
  | 0, _ => []
  | fuel + 1, n =>
      if n < 10 then [digitChar n]
      else natDigitsAux fuel (n / 10) ++ [digitChar (n % 10)]

/-- Big-endian decimal digits of a natural number. -/
def natDigits (n : Nat) : List Char := natDigitsAux (n + 1) n

/-- Decimal rendering of an integer, as Python prints `int`. -/
def intChars (i : Int) : List Char :=
  if i < 0 then '-' :: natDigits i.natAbs else natDigits i.natAbs

/-- A run of `n` space characters, for `indent=2` pretty-printing. -/
def spaces (n : Nat) : List Char := List.replicate n ' '

/-- Escaping of one character inside a JSON string literal, as
`json.dumps` emits it: the two mandatory escapes, short escapes for the
common control characters, `\u00xx` for the remaining control characters,
and every other character verbatim.  (Python's default `ensure_ascii=True`
additionally escapes characters above U+007F; both forms parse back to the
same character, so the model keeps them verbatim.) -/
def escapeChar (c : Char) : List Char :=
  if c = '"' then ['\\', '"']
  else if c = '\\' then ['\\', '\\']
  else if c = '\n' then ['\\', 'n']
  else if c = '\t' then ['\\', 't']
  else if c = '\r' then ['\\', 'r']
  else if c.toNat = 8 then ['\\', 'b']
  else if c.toNat = 12 then ['\\', 'f']
  else if c.toNat < 32 then
    ['\\', 'u', '0', '0', hexDigitChar (c.toNat / 16), hexDigitChar (c.toNat % 16)]
  else [c]

/-- Escaping of a whole string body. -/
def escapeString (s : List Char) : List Char := (s.map escapeChar).flatten

mutual

/-- Characters of `json.dumps(v, indent=2)` at indentation level `ind`:
items of a non-empty array or object are each on their own line, indented
two spaces further, separated by `,`; the key separator is `: `; empty
containers print on one line. -/
def ppVal (ind : Nat) : Json → List Char
  | Json.null => ['n', 'u', 'l', 'l']
  | Json.bool true => ['t', 'r', 'u', 'e']
  | Json.bool false => ['f', 'a', 'l', 's', 'e']
  | Json.num i => intChars i
  | Json.str s => '"' :: (escapeString s.data ++ ['"'])
  | Json.arr [] => ['[', ']']
  | Json.arr (x :: xs) =>
      '[' :: '\n' :: (spaces (ind + 2) ++ ppVal (ind + 2) x ++ ppArrItems (ind + 2) xs
        ++ '\n' :: (spaces ind ++ [']']))
  | Json.obj [] => [lbrace, rbrace]
  | Json.obj (kv :: kvs) =>
      lbrace :: '\n' :: (spaces (ind + 2) ++ ppField (ind + 2) kv ++ ppObjItems (ind + 2) kvs
        ++ '\n' :: (spaces ind ++ [rbrace]))

/-- The remaining items of a non-empty array: `,` then newline, indent,
item. -/
def ppArrItems (ind : Nat) : List Json → List Char
  | [] => []
  | x :: xs => ',' :: '\n' :: (spaces ind ++ ppVal ind x ++ ppArrItems ind xs)

/-- One `"key": value` field. -/
def ppField (ind : Nat) : String × Json → List Char
  | (k, v) => '"' :: (escapeString k.data ++ '"' :: ':' :: ' ' :: ppVal ind v)

/-- The remaining fields of a non-empty object. -/
def ppObjItems (ind : Nat) : List (String × Json) → List Char
  | [] => []
  | kv :: kvs => ',' :: '\n' :: (spaces ind ++ ppField ind kv ++ ppObjItems ind kvs)

end

/-- Model of `json.dumps(v, indent=2)`. -/
def dumps (j : Json) : String := String.mk (ppVal 0 j)

/-- Drop leading JSON whitespace. -/
def skipWs : List Char → List Char
  | [] => []
  | c :: cs => if isWs c then skipWs cs else c :: cs

/-- Expect a literal run of characters; return what follows it. -/
def expectLit : List Char → List Char → Option (List Char)
  | [], input => some input
  | _ :: _, [] => none
  | c :: cs, d :: input => if c = d then expectLit cs input else none

/-- Split off the longest leading run of decimal digits. -/
def takeDigits : List Char → List Char × List Char
  | [] => ([], [])
  | c :: cs =>
      if isDigitChar c then
        let p := takeDigits cs
        (c :: p.1, p.2)
      else ([], c :: cs)

/-- The numeric value of one digit character. -/
def digitVal (c : Char) : Nat := c.toNat - 48

/-- The natural number denoted by a big-endian digit run. -/
def digitsToNat (ds : List Char) : Nat :=
  ds.foldl (fun a c => 10 * a + digitVal c) 0

/-- The value of one hexadecimal digit character, if it is one. -/
def hexVal (c : Char) : Option Nat :=
  if 48 ≤ c.toNat ∧ c.toNat ≤ 57 then some (c.toNat - 48)
  else if 97 ≤ c.toNat ∧ c.toNat ≤ 102 then some (c.toNat - 87)
  else if 65 ≤ c.toNat ∧ c.toNat ≤ 70 then some (c.toNat - 55)
  else none

/-- The code point of a `\uXXXX` escape's four hexadecimal digits. -/
def hex4 (h1 h2 h3 h4 : Char) : Option Nat :=
  (hexVal h1).bind fun a =>
    (hexVal h2).bind fun b =>
      (hexVal h3).bind fun c =>
        (hexVal h4).map fun d => ((a * 16 + b) * 16 + c) * 16 + d

/-- Parse the body of a JSON string literal after the opening quote,
handling the escape sequences of RFC 8259; returns the decoded characters
and the input after the closing quote. -/
def parseStrBody : List Char → Option (List Char × List Char)
  | [] => none
  | c :: cs =>
      if c = '"' then some ([], cs)
      else if c = '\\' then
        match cs with
        | [] => none
        | e :: cs2 =>
            if e = '"' then (parseStrBody cs2).map fun p => ('"' :: p.1, p.2)
            else if e = '\\' then (parseStrBody cs2).map fun p => ('\\' :: p.1, p.2)
            else if e = '/' then (parseStrBody cs2).map fun p => ('/' :: p.1, p.2)
            else if e = 'n' then (parseStrBody cs2).map fun p => ('\n' :: p.1, p.2)
            else if e = 't' then (parseStrBody cs2).map fun p => ('\t' :: p.1, p.2)
            else if e = 'r' then (parseStrBody cs2).map fun p => ('\r' :: p.1, p.2)
            else if e = 'b' then (parseStrBody cs2).map fun p => (Char.ofNat 8 :: p.1, p.2)
            else if e = 'f' then (parseStrBody cs2).map fun p => (Char.ofNat 12 :: p.1, p.2)
            else if e = 'u' then
              match cs2 with
              | h1 :: h2 :: h3 :: h4 :: cs3 =>
                  (hex4 h1 h2 h3 h4).bind fun code =>
                    (parseStrBody cs3).map fun p => (Char.ofNat code :: p.1, p.2)
              | _ => none
            else none
      else (parseStrBody cs).map fun p => (c :: p.1, p.2)

mutual

/-- Recursive-descent parser for one JSON value, fuel-bounded; returns the
value and the unconsumed input. -/
def parseVal : Nat → List Char → Option (Json × List Char)
  | 0, _ => none
  | fuel + 1, input =>
      match skipWs input with
      | [] => none
      | c :: rest =>
          if isDigitChar c then
            let p := takeDigits (c :: rest)
            some (Json.num (Int.ofNat (digitsToNat p.1)), p.2)
          else if c = '-' then
            match takeDigits rest with
            | ([], _) => none
            | (ds, r) => some (Json.num (-(Int.ofNat (digitsToNat ds))), r)
          else if c = 'n' then
            (expectLit ['u', 'l', 'l'] rest).map fun r => (Json.null, r)
          else if c = 't' then
            (expectLit ['r', 'u', 'e'] rest).map fun r => (Json.bool true, r)
          else if c = 'f' then
            (expectLit ['a', 'l', 's', 'e'] rest).map fun r => (Json.bool false, r)
          else if c = '"' then
            (parseStrBody rest).map fun p => (Json.str (String.mk p.1), p.2)
          else if c = '[' then
            match skipWs rest with
            | [] => none
            | d :: r =>
                if d = ']' then some (Json.arr [], r)
                else
                  match parseVal fuel (d :: r) with
                  | none => none
                  | some (x, r2) =>
                      (parseArrTail fuel r2).map fun p => (Json.arr (x :: p.1), p.2)
          else if c = lbrace then
            match skipWs rest with
            | [] => none
            | d :: r =>
                if d = rbrace then some (Json.obj [], r)
                else
                  match parseField fuel (d :: r) with
                  | none => none
                  | some (kv, r2) =>
                      (parseObjTail fuel r2).map fun p => (Json.obj (kv :: p.1), p.2)
          else none

/-- After one array item: either `]` closes the array, or `,` is followed
by another item. -/
def parseArrTail : Nat → List Char → Option (List Json × List Char)
  | 0, _ => none
  | fuel + 1, input =>
      match skipWs input with
      | [] => none
      | c :: rest =>
          if c = ']' then some ([], rest)
          else if c = ',' then
            match parseVal fuel rest with
            | none => none
            | some (x, r2) => (parseArrTail fuel r2).map fun p => (x :: p.1, p.2)
          else none

/-- One `"key": value` member of an object. -/
def parseField : Nat → List Char → Option ((String × Json) × List Char)
  | 0, _ => none
  | fuel + 1, input =>
      match skipWs input with
      | [] => none
      | c :: rest =>
          if c = '"' then
            match parseStrBody rest with
            | none => none
            | some (k, r2) =>
                match skipWs r2 with
                | [] => none
                | d :: r3 =>
                    if d = ':' then
                      (parseVal fuel r3).map fun p => ((String.mk k, p.1), p.2)
                    else none
          else none

/-- After one object member: either the closing brace, or `,` followed by
another member. -/
def parseObjTail : Nat → List Char → Option (List (String × Json) × List Char)
  | 0, _ => none
  | fuel + 1, input =>
      match skipWs input with
      | [] => none
      | c :: rest =>
          if c = rbrace then some ([], rest)
          else if c = ',' then
            match parseField fuel rest with
            | none => none
            | some (kv, r2) => (parseObjTail fuel r2).map fun p => (kv :: p.1, p.2)
          else none

end

/-- Model of `json.loads`: parse one value, demand only whitespace after
it.  The fuel `s.length + 2` dominates the recursion depth of any
parseable input, since every recursive descent consumes input. -/
def loads (s : String) : Option Json :=
  match parseVal (s.length + 2) s.data with
  | none => none
  | some (j, rest) => if skipWs rest = [] then some j else none

mutual

/-- Fuel needed by `parseVal` to parse this value's rendering. -/
def cost : Json → Nat
  | Json.null => 1
  | Json.bool _ => 1
  | Json.num _ => 1
  | Json.str _ => 1
  | Json.arr xs => costA xs + 1
  | Json.obj kvs => costO kvs + 1

/-- Fuel needed by `parseArrTail` for the remaining items. -/
def costA : List Json → Nat
  | [] => 0
  | x :: xs => cost x + costA xs + 1

/-- Fuel needed by `parseObjTail` for the remaining fields. -/
def costO : List (String × Json) → Nat
  | [] => 0
  | kv :: kvs => cost kv.2 + costO kvs + 1

end

/-- The next input character, if any, is not a decimal digit; under this
guard a digit run before the input parses back to itself. -/
def headNotDigit : List Char → Bool
  | [] => true
  | c :: _ => !(isDigitChar c)

/-- Characters that can start the rendering of a JSON value. -/
def valStart (c : Char) : Bool :=
  isDigitChar c || c = '-' || c = 'n' || c = 't' || c = 'f' || c = '"' || c = '[' || c = lbrace

/-! ### Round trip: `loads (dumps j) = some j`

The parser needs fuel at least the structural cost of the value; the cost
is bounded by the length of the printed output, so `loads`' fuel choice of
`length + 2` always suffices. -/


/-! ### The tool bridge: HTTP model and the ten handlers of
`src/letta/tools.py` -/

/-- HTTP method of a request; the bridge only uses GET and POST. -/
inductive Method where
  | get : Method
  | post : Method

/-- One outbound HTTP request: method, full URL, and the JSON payload for
`requests.post(url, json=...)` (`none` for GET requests). -/
structure Request where
  method : Method
  url : String
  body : Option Json

/-- Outcome of attempting a request: a response (status code and body
text), or a raised transport exception carrying its rendered text `str(e)`. -/
inductive HttpOutcome where
  | resp (status : Nat) (body : String) : HttpOutcome
  | exn (msg : String) : HttpOutcome

/-- Per-invocation environment: the value of the `LEARNING_APP_URL`
environment variable (if set), and the transport's behaviour on each
request. -/
structure Env where
  learningAppUrl : Option String
  http : Request → HttpOutcome

/-- Reads `os.getenv("LEARNING_APP_URL", "http://localhost:5173")`, as done at
the top of every handler in `src/letta/tools.py`. -/
def appUrl (env : Env) : String := env.learningAppUrl.getD "http://localhost:5173"

/-- Embeds `LEARNING_APP_URL = os.getenv("LEARNING_APP_URL", "http://localhost:5999")`
from `src/letta/setup_agents.py` line 26: the multi-agent setup variant
defaults to port 5999. -/
def multiAgentAppUrl (envVar : Option String) : String :=
  envVar.getD "http://localhost:5999"

/-- An environment whose transport gives the same outcome to every
request: the simplest faithful model of one call's world, since each
handler performs at most one request. -/
def constEnv (u : Option String) (o : HttpOutcome) : Env := ⟨u, fun _ => o⟩

/-- Boolean string-prefix test, for stating what an error string starts
with. -/
def strStarts (s pfx : String) : Bool := pfx.data.isPrefixOf s.data

/-- Stand-in for the message text of the `ValueError`/`JSONDecodeError`
Python's `json` module raises on unparseable input; the handlers only ever
interpolate this text into an error string, never inspect it. -/
def jsonErrText : String := "Expecting value: line 1 column 1 (char 0)"

/-- Stand-in for the message text of the `AttributeError` raised when
`.get` or `.strip` is called on a value that does not support it; only
interpolated into an error string. -/
def attrErrText : String := "object has no attribute"

/-- The last binding of a key in an ordered field list, mirroring that a
later duplicate key in a Python dict shadows an earlier one. -/
def assocLast (kvs : List (String × Json)) (k : String) : Option Json :=
  match kvs with
  | [] => none
  | (k2, v) :: rest =>
      match assocLast rest k with
      | some v2 => some v2
      | none => if k2 = k then some v else none

/-- Python `d.get(key, default)`: needs `d` to be a dict (else
`AttributeError`, modelled as `none`); yields the default when the key is
absent. -/
def dictGet (j : Json) (k : String) (dflt : Json) : Option Json :=
  match j with
  | Json.obj kvs => some ((assocLast kvs k).getD dflt)
  | _ => none

/-- Python truthiness of a JSON value (`bool(v)`). -/
def jsonTruthy : Json → Bool
  | Json.null => false
  | Json.bool b => b
  | Json.num n => decide (n ≠ 0)
  | Json.str s => decide (s ≠ "")
  | Json.arr [] => false
  | Json.arr (_ :: _) => true
  | Json.obj [] => false
  | Json.obj (_ :: _) => true

/-- Whitespace stripped by Python `str.strip()` (the ASCII whitespace
characters; exotic Unicode space characters are outside the model). -/
def isPyWs (c : Char) : Bool :=
  c = ' ' || c = '\t' || c = '\n' || c = '\r' || c.toNat = 11 || c.toNat = 12

/-- Python `s.strip()`: drop leading and trailing whitespace. -/
def pyStrip (s : String) : String :=
  String.mk ((((s.data.dropWhile isPyWs).reverse).dropWhile isPyWs).reverse)

/-- Embeds `get_topics` (src/letta/tools.py lines 8-28).  The result is
paired with the list of HTTP requests issued, in order. -/
def get_topics (env : Env) : String × List Request :=
  let app_url := appUrl env
  let req : Request := ⟨Method.get, app_url ++ "/api/letta?action=topics", none⟩
  (match env.http req with
   | HttpOutcome.resp status body =>
       if status < 400 then
         match loads body with
         | some j => dumps j
         | none => "Error connecting to learning app at " ++ app_url ++ ": " ++ jsonErrText
       else "Error: " ++ toString status
   | HttpOutcome.exn e => "Error connecting to learning app at " ++ app_url ++ ": " ++ e,
   [req])

/-- Embeds `get_recent_conversations` (lines 31-51). -/
def get_recent_conversations (env : Env) : String × List Request :=
  let app_url := appUrl env
  let req : Request := ⟨Method.get, app_url ++ "/api/letta?action=notebooks", none⟩
  (match env.http req with
   | HttpOutcome.resp status body =>
       if status < 400 then
         match loads body with
         | some j => dumps j
         | none => "Error connecting to learning app at " ++ app_url ++ ": " ++ jsonErrText
       else "Error: " ++ toString status
   | HttpOutcome.exn e => "Error connecting to learning app at " ++ app_url ++ ": " ++ e,
   [req])

/-- Embeds `get_conversation_details` (lines 54-76): the topic id is
interpolated into the query string verbatim. -/
def get_conversation_details (env : Env) (topic_id : String) : String × List Request :=
  let app_url := appUrl env
  let req : Request :=
    ⟨Method.get, app_url ++ "/api/letta?action=notebook&topicId=" ++ topic_id, none⟩
  (match env.http req with
   | HttpOutcome.resp status body =>
       if status < 400 then
         match loads body with
         | some j => dumps j
         | none => "Error connecting to learning app at " ++ app_url ++ ": " ++ jsonErrText
       else "Error: " ++ toString status
   | HttpOutcome.exn e => "Error connecting to learning app at " ++ app_url ++ ": " ++ e,
   [req])

/-- Embeds `get_current_extensions` (lines 79-98). -/
def get_current_extensions (env : Env) : String × List Request :=
  let app_url := appUrl env
  let req : Request := ⟨Method.get, app_url ++ "/api/letta?action=extensions", none⟩
  (match env.http req with
   | HttpOutcome.resp status body =>
       if status < 400 then
         match loads body with
         | some j => dumps j
         | none => "Error connecting to learning app at " ++ app_url ++ ": " ++ jsonErrText
       else "Error: " ++ toString status
   | HttpOutcome.exn e => "Error connecting to learning app at " ++ app_url ++ ": " ++ e,
   [req])

/-- Embeds `get_student_progress` (lines 101-121). -/
def get_student_progress (env : Env) : String × List Request :=
  let app_url := appUrl env
  let req : Request := ⟨Method.get, app_url ++ "/api/progress", none⟩
  (match env.http req with
   | HttpOutcome.resp status body =>
       if status < 400 then
         match loads body with
         | some j => dumps j
         | none => "Error connecting to learning app at " ++ app_url ++ ": " ++ jsonErrText
       else "Error: " ++ toString status
   | HttpOutcome.exn e => "Error connecting to learning app at " ++ app_url ++ ": " ++ e,
   [req])

/-- Embeds `get_student_notes` (lines 124-154): fetch the whole progress
payload, project `data.get('topics', {}).get(topic_id, {}).get('notes', '')`,
and report `hasNotes` as `bool(notes.strip()) if notes else False`.  A
`.get` on a non-dict, or `.strip` on a truthy non-string, raises
`AttributeError`, which the handler's `except` turns into the connection
error string. -/
def get_student_notes (env : Env) (topic_id : String) : String × List Request :=
  let app_url := appUrl env
  let req : Request := ⟨Method.get, app_url ++ "/api/progress", none⟩
  (match env.http req with
   | HttpOutcome.resp status body =>
       if status < 400 then
         match loads body with
         | none => "Error connecting to learning app at " ++ app_url ++ ": " ++ jsonErrText
         | some data =>
             match dictGet data "topics" (Json.obj []) with
             | none => "Error connecting to learning app at " ++ app_url ++ ": " ++ attrErrText
             | some topicsVal =>
                 match dictGet topicsVal topic_id (Json.obj []) with
                 | none =>
                     "Error connecting to learning app at " ++ app_url ++ ": " ++ attrErrText
                 | some topic_progress =>
                     match dictGet topic_progress "notes" (Json.str "") with
                     | none =>
                         "Error connecting to learning app at " ++ app_url ++ ": " ++
                           attrErrText
                     | some notes =>
                         if jsonTruthy notes then
                           match notes with
                           | Json.str sn =>
                               dumps (Json.obj [("topicId", Json.str topic_id),
                                 ("notes", Json.str sn),
                                 ("hasNotes", Json.bool (decide (pyStrip sn ≠ "")))])
                           | _ =>
                               "Error connecting to learning app at " ++ app_url ++ ": " ++
                                 attrErrText
                         else
                           dumps (Json.obj [("topicId", Json.str topic_id),
                             ("notes", notes), ("hasNotes", Json.bool false)])
       else "Error: " ++ toString status
   | HttpOutcome.exn e => "Error connecting to learning app at " ++ app_url ++ ": " ++ e,
   [req])

/-- Embeds `add_resource` (lines 157-191): one POST to `/api/letta` with the
action payload; non-ok responses also report the response body text. -/
def add_resource (env : Env) (topic_id title url resource_type : String) :
    String × List Request :=
  let app_url := appUrl env
  let req : Request := ⟨Method.post, app_url ++ "/api/letta",
    some (Json.obj [("action", Json.str "add_resource"), ("topicId", Json.str topic_id),
      ("title", Json.str title), ("url", Json.str url), ("type", Json.str resource_type)])⟩
  (match env.http req with
   | HttpOutcome.resp status body =>
       if status < 400 then
         match loads body with
         | some j => dumps j
         | none => "Error connecting to learning app at " ++ app_url ++ ": " ++ jsonErrText
       else "Error: " ++ toString status ++ " - " ++ body
   | HttpOutcome.exn e => "Error connecting to learning app at " ++ app_url ++ ": " ++ e,
   [req])

/-- Embeds `add_code_example` (lines 194-230). -/
def add_code_example (env : Env) (topic_id title language code explanation : String) :
    String × List Request :=
  let app_url := appUrl env
  let req : Request := ⟨Method.post, app_url ++ "/api/letta",
    some (Json.obj [("action", Json.str "add_code_example"), ("topicId", Json.str topic_id),
      ("title", Json.str title), ("language", Json.str language), ("code", Json.str code),
      ("explanation", Json.str explanation)])⟩
  (match env.http req with
   | HttpOutcome.resp status body =>
       if status < 400 then
         match loads body with
         | some j => dumps j
         | none => "Error connecting to learning app at " ++ app_url ++ ": " ++ jsonErrText
       else "Error: " ++ toString status ++ " - " ++ body
   | HttpOutcome.exn e => "Error connecting to learning app at " ++ app_url ++ ": " ++ e,
   [req])

/-- The lesson POST payload built by `add_lesson` once its three list
arguments have been parsed. -/
def lessonPayload (topic_id title difficulty introduction : String)
    (concepts_list : Json) (explanation : String) (exercises_list connections_list : Json)
    (generated_for : String) : Json :=
  Json.obj [("topicId", Json.str topic_id), ("title", Json.str title),
    ("difficulty", Json.str difficulty),
    ("content", Json.obj [("introduction", Json.str introduction),
      ("concepts", concepts_list), ("explanation", Json.str explanation),
      ("exercises", exercises_list), ("connections", connections_list)]),
    ("generatedFor", Json.str generated_for)]

/-- Embeds `add_lesson` (lines 233-293): `json.loads` each of `concepts`,
`exercises`, `connections` before the POST (a parse failure is caught by the
`except`, so no request is made), then one POST to `/api/letta/lessons`.
Unlike the other nine handlers, the `except` clause here returns
`f"Error: {e}"`. -/
def add_lesson (env : Env)
    (topic_id title difficulty introduction concepts explanation exercises connections
      generated_for : String) : String × List Request :=
  let app_url := appUrl env
  match loads concepts with
  | none => ("Error: " ++ jsonErrText, [])
  | some concepts_list =>
  match loads exercises with
  | none => ("Error: " ++ jsonErrText, [])
  | some exercises_list =>
  match loads connections with
  | none => ("Error: " ++ jsonErrText, [])
  | some connections_list =>
  let req : Request := ⟨Method.post, app_url ++ "/api/letta/lessons",
    some (lessonPayload topic_id title difficulty introduction concepts_list explanation
      exercises_list connections_list generated_for)⟩
  (match env.http req with
   | HttpOutcome.resp status body =>
       if status < 400 then
         match loads body with
         | some j => dumps j
         | none => "Error: " ++ jsonErrText
       else "Error: " ++ toString status ++ " - " ++ body
   | HttpOutcome.exn e => "Error: " ++ e,
   [req])

/-- Embeds `get_lessons` (lines 296-320): `?topicId=` is appended exactly
when the argument is truthy, i.e. non-empty. -/
def get_lessons (env : Env) (topic_id : String) : String × List Request :=
  let app_url := appUrl env
  let url :=
    if topic_id = "" then app_url ++ "/api/letta/lessons"
    else app_url ++ "/api/letta/lessons" ++ "?topicId=" ++ topic_id
  let req : Request := ⟨Method.get, url, none⟩
  (match env.http req with
   | HttpOutcome.resp status body =>
       if status < 400 then
         match loads body with
         | some j => dumps j
         | none => "Error connecting to learning app at " ++ app_url ++ ": " ++ jsonErrText
       else "Error: " ++ toString status
   | HttpOutcome.exn e => "Error connecting to learning app at " ++ app_url ++ ": " ++ e,
   [req])

theorem cost_pos : ∀ j : Json, 1 ≤ cost j
  | Json.null => le_refl _
  | Json.bool _ => le_refl _
  | Json.num _ => le_refl _
  | Json.str _ => le_refl _
  | Json.arr _ => Nat.le_add_left _ _
  | Json.obj _ => Nat.le_add_left _ _


theorem char_ne_of_toNat_ne {c d : Char} (h : c.toNat ≠ d.toNat) : c ≠ d :=
  fun he => h (he ▸ rfl)

theorem not_ws_of_digit {c : Char} (h : isDigitChar c = true) : isWs c = false := by
  have hc : 48 ≤ c.toNat ∧ c.toNat ≤ 57 := by
    simpa [isDigitChar] using h
  have e1 : (' ' : Char).toNat = 32 := rfl
  have e2 : ('\t' : Char).toNat = 9 := rfl
  have e3 : ('\n' : Char).toNat = 10 := rfl
  have e4 : ('\r' : Char).toNat = 13 := rfl
  have h1 : c ≠ ' ' := char_ne_of_toNat_ne (by omega)
  have h2 : c ≠ '\t' := char_ne_of_toNat_ne (by omega)
  have h3 : c ≠ '\n' := char_ne_of_toNat_ne (by omega)
  have h4 : c ≠ '\r' := char_ne_of_toNat_ne (by omega)
  simp [isWs, h1, h2, h3, h4]

theorem skipWs_cons_ws {c : Char} (l : List Char) (h : isWs c = true) :
    skipWs (c :: l) = skipWs l := by
  simp [skipWs, h]

theorem skipWs_cons_not {c : Char} (l : List Char) (h : isWs c = false) :
    skipWs (c :: l) = c :: l := by
  simp [skipWs, h]

theorem skipWs_spaces (n : Nat) (l : List Char) : skipWs (spaces n ++ l) = skipWs l := by
  induction n with
  | zero => rfl
  | succ n ih =>
      have : spaces (n + 1) = ' ' :: spaces n := by
        simp [spaces, List.replicate_succ]
      rw [this, List.cons_append, skipWs_cons_ws _ (by decide), ih]

theorem skipWs_indent (n : Nat) (l : List Char) :
    skipWs ('\n' :: (spaces n ++ l)) = skipWs l := by
  rw [skipWs_cons_ws _ (by decide), skipWs_spaces]

/-! digit runs -/

theorem isDigitChar_digitChar {d : Nat} (h : d < 10) : isDigitChar (digitChar d) = true := by
  interval_cases d <;> decide

theorem digitVal_digitChar {d : Nat} (h : d < 10) : digitVal (digitChar d) = d := by
  interval_cases d <;> decide

theorem natDigitsAux_digits :
    ∀ (fuel n : Nat) (c : Char), c ∈ natDigitsAux fuel n → isDigitChar c = true := by
  intro fuel
  induction fuel with
  | zero => intro n c hc; simp [natDigitsAux] at hc
  | succ fuel ih =>
      intro n c hc
      by_cases h : n < 10
      · simp [natDigitsAux, h] at hc
        exact hc ▸ isDigitChar_digitChar h
      · simp [natDigitsAux, h] at hc
        rcases hc with hc | hc
        · exact ih _ _ hc
        · exact hc ▸ isDigitChar_digitChar (Nat.mod_lt _ (by omega))

theorem natDigitsAux_shape :
    ∀ (fuel n : Nat), n < fuel →
      ∃ c cs, natDigitsAux fuel n = c :: cs ∧ isDigitChar c = true := by
  intro fuel
  induction fuel with
  | zero => intro n h; omega
  | succ fuel ih =>
      intro n _
      by_cases h : n < 10
      · exact ⟨digitChar n, [], by simp [natDigitsAux, h], isDigitChar_digitChar h⟩
      · have hdiv : n / 10 < n := Nat.div_lt_self (by omega) (by omega)
        obtain ⟨c, cs, hshape, hc⟩ := ih (n / 10) (by omega)
        exact ⟨c, cs ++ [digitChar (n % 10)], by simp [natDigitsAux, h, hshape], hc⟩

theorem digitsToNat_natDigitsAux :
    ∀ (fuel n : Nat), n < fuel → digitsToNat (natDigitsAux fuel n) = n := by
  intro fuel
  induction fuel with
  | zero => intro n h; omega
  | succ fuel ih =>
      intro n hn
      by_cases h : n < 10
      · simp [natDigitsAux, h, digitsToNat, List.foldl, digitVal_digitChar h]
      · have hdiv : n / 10 < n := Nat.div_lt_self (by omega) (by omega)
        have := ih (n / 10) (by omega)
        simp only [natDigitsAux, h, if_false, digitsToNat] at *
        rw [List.foldl_append, this]
        simp [digitVal_digitChar (Nat.mod_lt n (by omega) : n % 10 < 10)]
        omega

theorem natDigits_shape (n : Nat) :
    ∃ c cs, natDigits n = c :: cs ∧ isDigitChar c = true :=
  natDigitsAux_shape (n + 1) n (Nat.lt_succ_self n)

theorem natDigits_digits (n : Nat) {c : Char} (h : c ∈ natDigits n) : isDigitChar c = true :=
  natDigitsAux_digits (n + 1) n c h

theorem digitsToNat_natDigits (n : Nat) : digitsToNat (natDigits n) = n :=
  digitsToNat_natDigitsAux (n + 1) n (Nat.lt_succ_self n)

theorem takeDigits_append :
    ∀ (ds rest : List Char), (∀ c ∈ ds, isDigitChar c = true) → headNotDigit rest = true →
      takeDigits (ds ++ rest) = (ds, rest) := by
  intro ds
  induction ds with
  | nil =>
      intro rest _ hrest
      cases rest with
      | nil => rfl
      | cons c l =>
          have : isDigitChar c = false := by simpa [headNotDigit] using hrest
          simp [takeDigits, this]
  | cons c ds ih =>
      intro rest hds hrest
      have hc : isDigitChar c = true := hds c (by simp)
      have hih := ih rest (fun d hd => hds d (by simp [hd])) hrest
      simp [List.cons_append, takeDigits, hc, hih]

/-! string literals -/

theorem hexVal_hexDigitChar {d : Nat} (h : d < 16) : hexVal (hexDigitChar d) = some d := by
  interval_cases d <;> decide

theorem hex4_eq {a b : Char} {va vb : Nat} (ha : hexVal a = some va) (hb : hexVal b = some vb) :
    hex4 '0' '0' a b = some (va * 16 + vb) := by
  have h0 : hexVal '0' = some 0 := rfl
  simp [hex4, h0, ha, hb]

theorem parseStrBody_escapeChar (c : Char) (l : List Char) :
    parseStrBody (escapeChar c ++ l) =
      (parseStrBody l).map fun p => (c :: p.1, p.2) := by
  by_cases h1 : c = '"'
  · subst h1
    rw [show escapeChar '"' = ['\\', '"'] from rfl, List.cons_append, List.cons_append,
      List.nil_append, parseStrBody.eq_def]
    simp +decide
  by_cases h2 : c = '\\'
  · subst h2
    rw [show escapeChar '\\' = ['\\', '\\'] from rfl, List.cons_append, List.cons_append,
      List.nil_append, parseStrBody.eq_def]
    simp +decide
  by_cases h3 : c = '\n'
  · subst h3
    rw [show escapeChar '\n' = ['\\', 'n'] from rfl, List.cons_append, List.cons_append,
      List.nil_append, parseStrBody.eq_def]
    simp +decide
  by_cases h4 : c = '\t'
  · subst h4
    rw [show escapeChar '\t' = ['\\', 't'] from rfl, List.cons_append, List.cons_append,
      List.nil_append, parseStrBody.eq_def]
    simp +decide
  by_cases h5 : c = '\r'
  · subst h5
    rw [show escapeChar '\r' = ['\\', 'r'] from rfl, List.cons_append, List.cons_append,
      List.nil_append, parseStrBody.eq_def]
    simp +decide
  by_cases h6 : c.toNat = 8
  · have hc : c = Char.ofNat 8 := by rw [← h6, Char.ofNat_toNat]
    subst hc
    rw [show escapeChar (Char.ofNat 8) = ['\\', 'b'] from rfl, List.cons_append,
      List.cons_append, List.nil_append, parseStrBody.eq_def]
    simp +decide
  by_cases h7 : c.toNat = 12
  · have hc : c = Char.ofNat 12 := by rw [← h7, Char.ofNat_toNat]
    subst hc
    rw [show escapeChar (Char.ofNat 12) = ['\\', 'f'] from rfl, List.cons_append,
      List.cons_append, List.nil_append, parseStrBody.eq_def]
    simp +decide
  by_cases h8 : c.toNat < 32
  · have hhi : c.toNat / 16 < 16 := by omega
    have hlo : c.toNat % 16 < 16 := Nat.mod_lt _ (by omega)
    have hval : c.toNat / 16 * 16 + c.toNat % 16 = c.toNat := by omega
    have hesc : escapeChar c ++ l =
        '\\' :: 'u' :: '0' :: '0' :: hexDigitChar (c.toNat / 16) ::
          hexDigitChar (c.toNat % 16) :: l := by
      simp [escapeChar, h1, h2, h3, h4, h5, h6, h7, h8]
    rw [hesc, parseStrBody.eq_def]
    simp +decide [hex4_eq (hexVal_hexDigitChar hhi) (hexVal_hexDigitChar hlo), hval,
      Char.ofNat_toNat]
  · have hesc : escapeChar c ++ l = c :: l := by
      simp [escapeChar, h1, h2, h3, h4, h5, h6, h7, h8]
    rw [hesc, parseStrBody.eq_def]
    simp [h1, h2]

theorem parseStrBody_escapeString :
    ∀ (s l : List Char), parseStrBody (escapeString s ++ '"' :: l) = some (s, l) := by
  intro s
  induction s with
  | nil =>
      intro l
      rw [show escapeString [] = [] from rfl, List.nil_append, parseStrBody.eq_def]
      simp +decide
  | cons c cs ih =>
      intro l
      have : escapeString (c :: cs) = escapeChar c ++ escapeString cs := by
        simp [escapeString]
      rw [this, List.append_assoc, parseStrBody_escapeChar, ih]
      rfl

/-! the first character of a printed value -/


theorem valStart_facts {c : Char} (h : valStart c = true) :
    isWs c = false ∧ c ≠ ']' ∧ c ≠ rbrace := by
  simp only [valStart, Bool.or_eq_true, decide_eq_true_eq] at h
  rcases h with ((((((hd | h) | h) | h) | h) | h) | h) | h
  · have hc : 48 ≤ c.toNat ∧ c.toNat ≤ 57 := by simpa [isDigitChar] using hd
    refine ⟨not_ws_of_digit hd, char_ne_of_toNat_ne ?_, char_ne_of_toNat_ne ?_⟩
    · have : (']' : Char).toNat = 93 := rfl
      omega
    · have : rbrace.toNat = 125 := rfl
      omega
  all_goals subst h
  all_goals refine ⟨rfl, by decide, ?_⟩
  all_goals intro he
  all_goals exact absurd (congrArg Char.toNat he) (by decide)

theorem ppVal_shape (ind : Nat) (j : Json) :
    ∃ c cs, ppVal ind j = c :: cs ∧ valStart c = true := by
  cases j with
  | null => exact ⟨'n', _, rfl, by decide⟩
  | bool b => cases b with
      | true => exact ⟨'t', _, rfl, by decide⟩
      | false => exact ⟨'f', _, rfl, by decide⟩
  | num i =>
      by_cases hneg : i < 0
      · exact ⟨'-', natDigits i.natAbs, by simp [ppVal, intChars, hneg], by decide⟩
      · obtain ⟨c, cs, hshape, hc⟩ := natDigits_shape i.natAbs
        exact ⟨c, cs, by simp [ppVal, intChars, hneg, hshape], by simp [valStart, hc]⟩
  | str s => exact ⟨'"', _, rfl, by decide⟩
  | arr xs => cases xs with
      | nil => exact ⟨'[', _, rfl, by decide⟩
      | cons x xs => exact ⟨'[', _, rfl, by decide⟩
  | obj kvs => cases kvs with
      | nil => exact ⟨lbrace, _, rfl, by decide⟩
      | cons kv kvs => exact ⟨lbrace, _, rfl, by decide⟩

theorem headNotDigit_ppArrItems (ind : Nat) (xs : List Json) (l : List Char) :
    headNotDigit (ppArrItems ind xs ++ '\n' :: l) = true := by
  cases xs <;> simp [ppArrItems, headNotDigit, isDigitChar]

theorem headNotDigit_ppObjItems (ind : Nat) (kvs : List (String × Json)) (l : List Char) :
    headNotDigit (ppObjItems ind kvs ++ '\n' :: l) = true := by
  cases kvs <;> simp [ppObjItems, headNotDigit, isDigitChar]

theorem parseVal_ws_congr (fuel : Nat) (a b : List Char) (h : skipWs a = skipWs b) :
    parseVal fuel a = parseVal fuel b := by
  cases fuel with
  | zero => rfl
  | succ fuel => simp only [parseVal]; rw [h]

theorem parseField_ws_congr (fuel : Nat) (a b : List Char) (h : skipWs a = skipWs b) :
    parseField fuel a = parseField fuel b := by
  cases fuel with
  | zero => rfl
  | succ fuel => simp only [parseField]; rw [h]

theorem parse_pp_aux : ∀ fuel : Nat,
    (∀ (j : Json) (ind : Nat) (rest : List Char), cost j ≤ fuel → headNotDigit rest = true →
      parseVal fuel (ppVal ind j ++ rest) = some (j, rest)) ∧
    (∀ (xs : List Json) (ind2 ind : Nat) (rest : List Char), costA xs < fuel →
      parseArrTail fuel (ppArrItems ind2 xs ++ '\n' :: (spaces ind ++ ']' :: rest)) =
        some (xs, rest)) ∧
    (∀ (kvs : List (String × Json)) (ind2 ind : Nat) (rest : List Char), costO kvs < fuel →
      parseObjTail fuel (ppObjItems ind2 kvs ++ '\n' :: (spaces ind ++ rbrace :: rest)) =
        some (kvs, rest)) ∧
    (∀ (k : String) (v : Json) (ind : Nat) (rest : List Char), cost v < fuel →
      headNotDigit rest = true →
      parseField fuel (ppField ind (k, v) ++ rest) = some ((k, v), rest)) := by
  intro fuel
  induction fuel with
  | zero =>
      refine ⟨?_, ?_, ?_, ?_⟩
      · intro j _ _ hcost _
        exact absurd (le_trans (cost_pos j) hcost) (by omega)
      · intro _ _ _ _ h; omega
      · intro _ _ _ _ h; omega
      · intro _ _ _ _ h _
        exact absurd (lt_of_le_of_lt (cost_pos _) h) (by omega)
  | succ fuel ih =>
      obtain ⟨ih1, ih2, ih3, ih4⟩ := ih
      refine ⟨?_, ?_, ?_, ?_⟩
      · -- parseVal on a printed value
        intro j ind rest hcost hrest
        cases j with
        | null => simp +decide [ppVal, parseVal, skipWs, expectLit]
        | bool b =>
            cases b <;> simp +decide [ppVal, parseVal, skipWs, expectLit]
        | num i =>
            rcases lt_or_ge i 0 with hneg | hpos
            · obtain ⟨c, cs, hnd, hcdig⟩ := natDigits_shape i.natAbs
              have hdigs : ∀ d ∈ natDigits i.natAbs, isDigitChar d = true :=
                fun d hd => natDigits_digits _ hd
              have hval : digitsToNat (c :: cs) = i.natAbs := by
                rw [← hnd, digitsToNat_natDigits]
              rw [show ppVal ind (Json.num i) = intChars i from by simp [ppVal],
                show intChars i = '-' :: natDigits i.natAbs from by simp [intChars, hneg]]
              simp only [List.cons_append, parseVal, skipWs_cons_not _ (by decide : isWs '-' = false)]
              rw [takeDigits_append _ _ hdigs hrest, hnd]
              simp +decide [hval, abs_of_neg hneg]
            · obtain ⟨c, cs, hnd, hcdig⟩ := natDigits_shape i.natAbs
              have hdigs : ∀ d ∈ natDigits i.natAbs, isDigitChar d = true :=
                fun d hd => natDigits_digits _ hd
              have hval : digitsToNat (c :: cs) = i.natAbs := by
                rw [← hnd, digitsToNat_natDigits]
              rw [show ppVal ind (Json.num i) = intChars i from by simp [ppVal],
                show intChars i = natDigits i.natAbs from by simp [intChars, not_lt_of_ge hpos],
                hnd]
              simp only [List.cons_append, parseVal,
                skipWs_cons_not _ (not_ws_of_digit hcdig), hcdig]
              rw [← List.cons_append, ← hnd, takeDigits_append _ _ hdigs hrest]
              simp +decide [hnd, hval, abs_of_nonneg hpos]
        | str s =>
            obtain ⟨sd⟩ := s
            simp +decide [ppVal, parseVal, skipWs, parseStrBody_escapeString]
        | arr xs =>
            cases xs with
            | nil => simp +decide [ppVal, parseVal, skipWs]
            | cons x xs =>
                have hx : cost x ≤ fuel := by
                  have := cost_pos x
                  simp [cost, costA] at hcost
                  omega
                have hxs : costA xs < fuel := by
                  have := cost_pos x
                  simp [cost, costA] at hcost
                  omega
                obtain ⟨c0, cs0, hA, hst⟩ := ppVal_shape (ind + 2) x
                obtain ⟨hws0, hnsq, hnbr⟩ := valStart_facts hst
                rw [show ppVal ind (Json.arr (x :: xs)) =
                    '[' :: '\n' :: (spaces (ind + 2) ++ ppVal (ind + 2) x ++
                      ppArrItems (ind + 2) xs ++ '\n' :: (spaces ind ++ [']'])) from by
                  simp [ppVal]]
                simp only [List.cons_append, List.append_assoc, List.nil_append]
                simp only [parseVal, skipWs_cons_not _ (by decide : isWs '[' = false)]
                rw [skipWs_indent, hA, List.cons_append, skipWs_cons_not _ hws0]
                have hx1 : parseVal fuel (c0 :: (cs0 ++ (ppArrItems (ind + 2) xs ++
                    '\n' :: (spaces ind ++ ']' :: rest)))) =
                    some (x, ppArrItems (ind + 2) xs ++ '\n' :: (spaces ind ++ ']' :: rest)) := by
                  rw [← List.cons_append, ← hA]
                  exact ih1 x (ind + 2) _ hx (headNotDigit_ppArrItems _ _ _)
                simp +decide only [hnsq, hx1, ih2 xs (ind + 2) ind rest hxs, Option.map_some',
                  ite_true, ite_false]
        | obj kvs =>
            cases kvs with
            | nil => simp +decide [ppVal, parseVal, skipWs]
            | cons kv kvs =>
                obtain ⟨k, v⟩ := kv
                have hv : cost v < fuel := by
                  have := cost_pos v
                  simp [cost, costO] at hcost
                  omega
                have hkvs : costO kvs < fuel := by
                  have := cost_pos v
                  simp [cost, costO] at hcost
                  omega
                rw [show ppVal ind (Json.obj ((k, v) :: kvs)) =
                    lbrace :: '\n' :: (spaces (ind + 2) ++ ppField (ind + 2) (k, v) ++
                      ppObjItems (ind + 2) kvs ++ '\n' :: (spaces ind ++ [rbrace])) from by
                  simp [ppVal]]
                simp only [List.cons_append, List.append_assoc, List.nil_append]
                simp only [parseVal, skipWs_cons_not _ (by decide : isWs lbrace = false)]
                rw [skipWs_indent,
                  show ppField (ind + 2) (k, v) =
                    '"' :: (escapeString k.data ++ '"' :: ':' :: ' ' :: ppVal (ind + 2) v) from by
                      simp [ppField],
                  List.cons_append, skipWs_cons_not _ (by decide : isWs '"' = false)]
                have hf1 : parseField fuel ('"' :: ((escapeString k.data ++
                    '"' :: ':' :: ' ' :: ppVal (ind + 2) v) ++ (ppObjItems (ind + 2) kvs ++
                    '\n' :: (spaces ind ++ rbrace :: rest)))) =
                    some ((k, v), ppObjItems (ind + 2) kvs ++
                      '\n' :: (spaces ind ++ rbrace :: rest)) := by
                  rw [← List.cons_append,
                    show '"' :: (escapeString k.data ++ '"' :: ':' :: ' ' :: ppVal (ind + 2) v) =
                      ppField (ind + 2) (k, v) from by simp [ppField]]
                  exact ih4 k v (ind + 2) _ hv (headNotDigit_ppObjItems _ _ _)
                simp +decide only [hf1, ih3 kvs (ind + 2) ind rest hkvs, Option.map_some',
                  ite_true, ite_false]
      · -- parseArrTail on printed remaining items
        intro xs ind2 ind rest hc
        cases xs with
        | nil =>
            rw [show ppArrItems ind2 ([] : List Json) = [] from by simp [ppArrItems],
              List.nil_append]
            simp only [parseArrTail, skipWs_indent]
            simp +decide [skipWs]
        | cons x xs =>
            have hx : cost x ≤ fuel := by
              have := cost_pos x
              simp [costA] at hc
              omega
            have hxs : costA xs < fuel := by
              have := cost_pos x
              simp [costA] at hc
              omega
            rw [show ppArrItems ind2 (x :: xs) =
                ',' :: '\n' :: (spaces ind2 ++ ppVal ind2 x ++ ppArrItems ind2 xs) from by
              simp [ppArrItems]]
            simp only [List.cons_append, List.append_assoc]
            simp only [parseArrTail, skipWs_cons_not _ (by decide : isWs ',' = false)]
            have hv1 : parseVal fuel ('\n' :: (spaces ind2 ++ (ppVal ind2 x ++
                (ppArrItems ind2 xs ++ '\n' :: (spaces ind ++ ']' :: rest))))) =
                some (x, ppArrItems ind2 xs ++ '\n' :: (spaces ind ++ ']' :: rest)) := by
              rw [parseVal_ws_congr fuel _ _ (skipWs_indent ind2 _)]
              exact ih1 x ind2 _ hx (headNotDigit_ppArrItems _ _ _)
            simp +decide only [hv1, ih2 xs ind2 ind rest hxs, Option.map_some',
              ite_true, ite_false]
      · -- parseObjTail on printed remaining fields
        intro kvs ind2 ind rest hc
        cases kvs with
        | nil =>
            rw [show ppObjItems ind2 ([] : List (String × Json)) = [] from by simp [ppObjItems],
              List.nil_append]
            simp only [parseObjTail, skipWs_indent]
            simp +decide [skipWs]
        | cons kv kvs =>
            obtain ⟨k, v⟩ := kv
            have hv : cost v < fuel := by
              have := cost_pos v
              simp [costO] at hc
              omega
            have hkvs : costO kvs < fuel := by
              have := cost_pos v
              simp [costO] at hc
              omega
            rw [show ppObjItems ind2 ((k, v) :: kvs) =
                ',' :: '\n' :: (spaces ind2 ++ ppField ind2 (k, v) ++ ppObjItems ind2 kvs) from by
              simp [ppObjItems]]
            simp only [List.cons_append, List.append_assoc]
            simp only [parseObjTail, skipWs_cons_not _ (by decide : isWs ',' = false)]
            have hf1 : parseField fuel ('\n' :: (spaces ind2 ++ (ppField ind2 (k, v) ++
                (ppObjItems ind2 kvs ++ '\n' :: (spaces ind ++ rbrace :: rest))))) =
                some ((k, v), ppObjItems ind2 kvs ++ '\n' :: (spaces ind ++ rbrace :: rest)) := by
              rw [parseField_ws_congr fuel _ _ (skipWs_indent ind2 _)]
              exact ih4 k v ind2 _ hv (headNotDigit_ppObjItems _ _ _)
            simp +decide only [hf1, ih3 kvs ind2 ind rest hkvs, Option.map_some',
              ite_true, ite_false]
      · -- parseField on a printed field
        intro k v ind rest hv hrest
        obtain ⟨kd⟩ := k
        rw [show ppField ind (⟨kd⟩, v) =
            '"' :: (escapeString (String.mk kd).data ++ '"' :: ':' :: ' ' :: ppVal ind v) from by
          simp [ppField]]
        simp only [List.cons_append, List.append_assoc]
        simp only [parseField, skipWs_cons_not _ (by decide : isWs '"' = false)]
        have hs1 : parseStrBody (escapeString (String.mk kd).data ++
            '"' :: ':' :: ' ' :: (ppVal ind v ++ rest)) =
            some ((String.mk kd).data, ':' :: ' ' :: (ppVal ind v ++ rest)) :=
          parseStrBody_escapeString (String.mk kd).data _
        have hv1 : parseVal fuel (' ' :: (ppVal ind v ++ rest)) = some (v, rest) := by
          rw [parseVal_ws_congr fuel _ _ (skipWs_cons_ws _ (by decide : isWs ' ' = true))]
          exact ih1 v ind rest (by omega) hrest
        simp +decide only [hs1, hv1, skipWs_cons_not _ (by decide : isWs ':' = false),
          Option.map_some', ite_true, ite_false]

mutual

theorem cost_le_len : ∀ (j : Json) (ind : Nat), cost j ≤ (ppVal ind j).length
  | Json.null, ind => by simp [cost, ppVal]
  | Json.bool true, ind => by simp [cost, ppVal]
  | Json.bool false, ind => by simp [cost, ppVal]
  | Json.num i, ind => by
      obtain ⟨c, cs, hnd, _⟩ := natDigits_shape i.natAbs
      rcases lt_or_ge i 0 with hneg | hpos
      · simp [cost, ppVal, intChars, hneg, hnd]
      · simp [cost, ppVal, intChars, not_lt_of_ge hpos, hnd]
  | Json.str s, ind => by simp [cost, ppVal]
  | Json.arr [], _ => by simp [cost, costA, ppVal]
  | Json.arr (x :: xs), ind => by
      have h1 := cost_le_len x (ind + 2)
      have h2 := costA_le_len xs (ind + 2)
      simp [cost, costA, ppVal]
      omega
  | Json.obj [], _ => by simp [cost, costO, ppVal]
  | Json.obj (kv :: kvs), ind => by
      have h1 := costF_le_len kv (ind + 2)
      have h2 := costO_le_len kvs (ind + 2)
      simp [cost, costO, ppVal]
      omega
termination_by j _ => sizeOf j

theorem costA_le_len : ∀ (xs : List Json) (ind : Nat), costA xs ≤ (ppArrItems ind xs).length
  | [], _ => by simp [costA, ppArrItems]
  | x :: xs, ind => by
      have h1 := cost_le_len x ind
      have h2 := costA_le_len xs ind
      simp [costA, ppArrItems]
      omega
termination_by xs _ => sizeOf xs

theorem costO_le_len :
    ∀ (kvs : List (String × Json)) (ind : Nat), costO kvs ≤ (ppObjItems ind kvs).length
  | [], _ => by simp [costO, ppObjItems]
  | kv :: kvs, ind => by
      have h1 := costF_le_len kv ind
      have h2 := costO_le_len kvs ind
      simp [costO, ppObjItems]
      omega
termination_by kvs _ => sizeOf kvs

theorem costF_le_len : ∀ (kv : String × Json) (ind : Nat), cost kv.2 + 1 ≤ (ppField ind kv).length
  | (k, v), ind => by
      have h1 := cost_le_len v ind
      simp [ppField]
      omega
termination_by kv _ => sizeOf kv

end

theorem loads_dumps (j : Json) : loads (dumps j) = some j := by
  have hb : cost j ≤ (ppVal 0 j).length + 2 := le_trans (cost_le_len j 0) (by omega)
  have h := (parse_pp_aux ((ppVal 0 j).length + 2)).1 j 0 [] hb rfl
  rw [List.append_nil] at h
  simp [loads, dumps, String.length, h, skipWs]

/-! ### The claims -/

/-- C1: the claim says every one of the ten operations turns a raised
transport/parse exception into a string starting with
`"Error connecting to learning app"`; `add_lesson`'s `except` clause
instead returns `f"Error: {e}"`, refuting the claim at `add_lesson`. -/
theorem C1_add_lesson_exception_counterexample :
    (add_lesson (constEnv (some "http://h:1") (HttpOutcome.exn "boom"))
        "t" "ti" "beginner" "intro" "[]" "expl" "[]" "[]" "asked").1 = "Error: boom" ∧
    strStarts
      (add_lesson (constEnv (some "http://h:1") (HttpOutcome.exn "boom"))
        "t" "ti" "beginner" "intro" "[]" "expl" "[]" "[]" "asked").1
      "Error connecting to learning app" = false := by
  exact ⟨rfl, rfl⟩

/-- C1 (amended): a raised transport or parse exception never propagates.
On a transport exception the nine handlers other than `add_lesson` return
`"Error connecting to learning app at <base>: <exception text>"`, while
`add_lesson` returns `"Error: <exception text>"`; on a parse exception (a
sub-400 response whose body is not valid JSON, so `response.json()`
raises) the nine handlers return the same connection-error string carrying
the JSON error text, and `add_lesson` returns `"Error: <json error text>"`. -/
theorem C1_exception_error_strings :
    ∀ (u : Option String) (e tid title url rtype lang code expl diff intro conc exr conn gen
        : String),
      ((get_topics (constEnv u (HttpOutcome.exn e))).1 =
        "Error connecting to learning app at " ++ appUrl (constEnv u (HttpOutcome.exn e)) ++
          ": " ++ e) ∧
      ((get_recent_conversations (constEnv u (HttpOutcome.exn e))).1 =
        "Error connecting to learning app at " ++ appUrl (constEnv u (HttpOutcome.exn e)) ++
          ": " ++ e) ∧
      ((get_conversation_details (constEnv u (HttpOutcome.exn e)) tid).1 =
        "Error connecting to learning app at " ++ appUrl (constEnv u (HttpOutcome.exn e)) ++
          ": " ++ e) ∧
      ((get_current_extensions (constEnv u (HttpOutcome.exn e))).1 =
        "Error connecting to learning app at " ++ appUrl (constEnv u (HttpOutcome.exn e)) ++
          ": " ++ e) ∧
      ((get_student_progress (constEnv u (HttpOutcome.exn e))).1 =
        "Error connecting to learning app at " ++ appUrl (constEnv u (HttpOutcome.exn e)) ++
          ": " ++ e) ∧
      ((get_student_notes (constEnv u (HttpOutcome.exn e)) tid).1 =
        "Error connecting to learning app at " ++ appUrl (constEnv u (HttpOutcome.exn e)) ++
          ": " ++ e) ∧
      ((add_resource (constEnv u (HttpOutcome.exn e)) tid title url rtype).1 =
        "Error connecting to learning app at " ++ appUrl (constEnv u (HttpOutcome.exn e)) ++
          ": " ++ e) ∧
      ((add_code_example (constEnv u (HttpOutcome.exn e)) tid title lang code expl).1 =
        "Error connecting to learning app at " ++ appUrl (constEnv u (HttpOutcome.exn e)) ++
          ": " ++ e) ∧
      ((get_lessons (constEnv u (HttpOutcome.exn e)) tid).1 =
        "Error connecting to learning app at " ++ appUrl (constEnv u (HttpOutcome.exn e)) ++
          ": " ++ e) ∧
      (∀ cv xv nv, loads conc = some cv → loads exr = some xv → loads conn = some nv →
        (add_lesson (constEnv u (HttpOutcome.exn e))
            tid title diff intro conc expl exr conn gen).1 = "Error: " ++ e) ∧
      (∀ (status : Nat) (body : String), status < 400 → loads body = none →
        ((get_topics (constEnv u (HttpOutcome.resp status body))).1 =
          "Error connecting to learning app at " ++
            appUrl (constEnv u (HttpOutcome.resp status body)) ++ ": " ++ jsonErrText) ∧
        ((get_recent_conversations (constEnv u (HttpOutcome.resp status body))).1 =
          "Error connecting to learning app at " ++
            appUrl (constEnv u (HttpOutcome.resp status body)) ++ ": " ++ jsonErrText) ∧
        ((get_conversation_details (constEnv u (HttpOutcome.resp status body)) tid).1 =
          "Error connecting to learning app at " ++
            appUrl (constEnv u (HttpOutcome.resp status body)) ++ ": " ++ jsonErrText) ∧
        ((get_current_extensions (constEnv u (HttpOutcome.resp status body))).1 =
          "Error connecting to learning app at " ++
            appUrl (constEnv u (HttpOutcome.resp status body)) ++ ": " ++ jsonErrText) ∧
        ((get_student_progress (constEnv u (HttpOutcome.resp status body))).1 =
          "Error connecting to learning app at " ++
            appUrl (constEnv u (HttpOutcome.resp status body)) ++ ": " ++ jsonErrText) ∧
        ((get_student_notes (constEnv u (HttpOutcome.resp status body)) tid).1 =
          "Error connecting to learning app at " ++
            appUrl (constEnv u (HttpOutcome.resp status body)) ++ ": " ++ jsonErrText) ∧
        ((add_resource (constEnv u (HttpOutcome.resp status body)) tid title url rtype).1 =
          "Error connecting to learning app at " ++
            appUrl (constEnv u (HttpOutcome.resp status body)) ++ ": " ++ jsonErrText) ∧
        ((add_code_example (constEnv u (HttpOutcome.resp status body))
            tid title lang code expl).1 =
          "Error connecting to learning app at " ++
            appUrl (constEnv u (HttpOutcome.resp status body)) ++ ": " ++ jsonErrText) ∧
        ((get_lessons (constEnv u (HttpOutcome.resp status body)) tid).1 =
          "Error connecting to learning app at " ++
            appUrl (constEnv u (HttpOutcome.resp status body)) ++ ": " ++ jsonErrText) ∧
        (∀ cv xv nv, loads conc = some cv → loads exr = some xv → loads conn = some nv →
          (add_lesson (constEnv u (HttpOutcome.resp status body))
              tid title diff intro conc expl exr conn gen).1 =
            "Error: " ++ jsonErrText)) := by
  intro u e tid title url rtype lang code expl diff intro conc exr conn gen
  refine ⟨?_, ?_, ?_, ?_, ?_, ?_, ?_, ?_, ?_, ?_, ?_⟩
  · simp [get_topics, constEnv]
  · simp [get_recent_conversations, constEnv]
  · simp [get_conversation_details, constEnv]
  · simp [get_current_extensions, constEnv]
  · simp [get_student_progress, constEnv]
  · simp [get_student_notes, constEnv]
  · simp [add_resource, constEnv]
  · simp [add_code_example, constEnv]
  · simp [get_lessons, constEnv]
  · intro cv xv nv hc hx hn
    simp [add_lesson, constEnv, hc, hx, hn]
  · intro status body hok hb
    refine ⟨?_, ?_, ?_, ?_, ?_, ?_, ?_, ?_, ?_, ?_⟩
    · simp [get_topics, constEnv, hok, hb]
    · simp [get_recent_conversations, constEnv, hok, hb]
    · simp [get_conversation_details, constEnv, hok, hb]
    · simp [get_current_extensions, constEnv, hok, hb]
    · simp [get_student_progress, constEnv, hok, hb]
    · simp [get_student_notes, constEnv, hok, hb]
    · simp [add_resource, constEnv, hok, hb]
    · simp [add_code_example, constEnv, hok, hb]
    · simp [get_lessons, constEnv, hok, hb]
    · intro cv xv nv hc hx hn
      simp [add_lesson, constEnv, hok, hb, hc, hx, hn]


/-- C1 witness: at a concrete environment, the amended statement's
hypotheses hold and its conclusions evaluate, for a transport exception
and for a parse exception (200 response with unparseable body). -/
theorem C1_exception_error_strings_witness :
    loads "[]" = some (Json.arr []) ∧
    (200 < 400 ∧ loads "not json" = none) ∧
    (get_topics (constEnv none (HttpOutcome.exn "boom"))).1 =
      "Error connecting to learning app at " ++
        appUrl (constEnv none (HttpOutcome.exn "boom")) ++ ": " ++ "boom" ∧
    (add_lesson (constEnv none (HttpOutcome.exn "boom"))
        "t" "ti" "d" "i" "[]" "e" "[]" "[]" "g").1 = "Error: " ++ "boom" ∧
    (get_topics (constEnv none (HttpOutcome.resp 200 "not json"))).1 =
      "Error connecting to learning app at " ++
        appUrl (constEnv none (HttpOutcome.resp 200 "not json")) ++ ": " ++ jsonErrText ∧
    (add_lesson (constEnv none (HttpOutcome.resp 200 "not json"))
        "t" "ti" "d" "i" "[]" "e" "[]" "[]" "g").1 = "Error: " ++ jsonErrText := by
  refine ⟨rfl, ⟨by omega, rfl⟩, ?_, ?_, ?_, ?_⟩
  · exact (C1_exception_error_strings none "boom" "t" "ti" "u" "r" "l" "c" "e" "d" "i"
      "[]" "[]" "[]" "g").1
  · exact (C1_exception_error_strings none "boom" "t" "ti" "u" "r" "l" "c" "e" "d" "i"
      "[]" "[]" "[]" "g").2.2.2.2.2.2.2.2.2.1 (Json.arr []) (Json.arr []) (Json.arr [])
      rfl rfl rfl
  · exact ((C1_exception_error_strings none "boom" "t" "ti" "u" "r" "l" "c" "e" "d" "i"
      "[]" "[]" "[]" "g").2.2.2.2.2.2.2.2.2.2 200 "not json" (by omega) rfl).1
  · exact ((C1_exception_error_strings none "boom" "t" "ti" "u" "r" "l" "c" "e" "d" "i"
      "[]" "[]" "[]" "g").2.2.2.2.2.2.2.2.2.2 200 "not json" (by omega)
      rfl).2.2.2.2.2.2.2.2.2 (Json.arr []) (Json.arr []) (Json.arr []) rfl rfl rfl

/-- C2: the claim extends the pretty-printed-body contract to all ten
operations, but `get_student_notes` is a derived read: on a 2xx
response with body `\x7b\x7d` it returns the notes projection object, not
the re-serialized body `"\x7b\x7d"`. -/
theorem C2_get_student_notes_counterexample :
    loads "\x7b\x7d" = some (Json.obj []) ∧
    dumps (Json.obj []) = "\x7b\x7d" ∧
    (get_student_notes (constEnv none (HttpOutcome.resp 200 "\x7b\x7d")) "X").1 =
      "\x7b\n  \"topicId\": \"X\",\n  \"notes\": \"\",\n  \"hasNotes\": false\n\x7d" ∧
    ((get_student_notes (constEnv none (HttpOutcome.resp 200 "\x7b\x7d")) "X").1 =
      dumps (Json.obj []) → False) := by
  refine ⟨rfl, rfl, rfl, ?_⟩
  intro h
  exact absurd h (by decide)

/-- C2 (amended): for the nine operations other than `get_student_notes`,
a 2xx response with a body parsing to `j` returns exactly `dumps j`, and
parsing the returned string yields `j` again (`loads_dumps`); the
`add_resource` example returns exactly the expected pretty-printed
string. -/
theorem C2_success_round_trip :
    ∀ (u : Option String) (status : Nat) (body : String) (j : Json),
      200 ≤ status → status ≤ 299 → loads body = some j →
      (loads (dumps j) = some j) ∧
      ((get_topics (constEnv u (HttpOutcome.resp status body))).1 = dumps j) ∧
      ((get_recent_conversations (constEnv u (HttpOutcome.resp status body))).1 = dumps j) ∧
      (∀ tid, (get_conversation_details (constEnv u (HttpOutcome.resp status body)) tid).1 =
        dumps j) ∧
      ((get_current_extensions (constEnv u (HttpOutcome.resp status body))).1 = dumps j) ∧
      ((get_student_progress (constEnv u (HttpOutcome.resp status body))).1 = dumps j) ∧
      (∀ tid title url rtype,
        (add_resource (constEnv u (HttpOutcome.resp status body)) tid title url rtype).1 =
          dumps j) ∧
      (∀ tid title lang code expl,
        (add_code_example (constEnv u (HttpOutcome.resp status body))
          tid title lang code expl).1 = dumps j) ∧
      (∀ tid title diff intro conc expl exr conn gen cv xv nv,
        loads conc = some cv → loads exr = some xv → loads conn = some nv →
        (add_lesson (constEnv u (HttpOutcome.resp status body))
          tid title diff intro conc expl exr conn gen).1 = dumps j) ∧
      (∀ tid, (get_lessons (constEnv u (HttpOutcome.resp status body)) tid).1 = dumps j) ∧
      ((add_resource (constEnv u (HttpOutcome.resp 200
          "\x7b\"id\": 7, \"status\": \"ok\"\x7d"))
          "signals" "Godot Signals Docs" "https://docs.godotengine.org/en/stable/" "docs").1 =
        "\x7b\n  \"id\": 7,\n  \"status\": \"ok\"\n\x7d") := by
  intro u status body j h1 h2 hbody
  have hok : status < 400 := by omega
  refine ⟨loads_dumps j, ?_, ?_, ?_, ?_, ?_, ?_, ?_, ?_, ?_, ?_⟩
  · simp [get_topics, constEnv, hok, hbody]
  · simp [get_recent_conversations, constEnv, hok, hbody]
  · intro tid; simp [get_conversation_details, constEnv, hok, hbody]
  · simp [get_current_extensions, constEnv, hok, hbody]
  · simp [get_student_progress, constEnv, hok, hbody]
  · intro tid title url rtype; simp [add_resource, constEnv, hok, hbody]
  · intro tid title lang code expl; simp [add_code_example, constEnv, hok, hbody]
  · intro tid title diff intro2 conc expl exr conn gen cv xv nv hc hx hn
    simp [add_lesson, constEnv, hok, hbody, hc, hx, hn]
  · intro tid
    by_cases htid : tid = "" <;> simp [get_lessons, constEnv, hok, hbody, htid]
  · rfl

/-- C2 witness: concrete 2xx response with body `\x7b"a": 1\x7d`. -/
theorem C2_success_round_trip_witness :
    (200 ≤ 204 ∧ 204 ≤ 299) ∧
    loads "\x7b\"a\": 1\x7d" = some (Json.obj [("a", Json.num 1)]) ∧
    (get_topics (constEnv none (HttpOutcome.resp 204 "\x7b\"a\": 1\x7d"))).1 =
      dumps (Json.obj [("a", Json.num 1)]) := by
  refine ⟨⟨by omega, by omega⟩, rfl, ?_⟩
  exact (C2_success_round_trip none 204 "\x7b\"a\": 1\x7d" (Json.obj [("a", Json.num 1)])
    (by omega) (by omega) rfl).2.1


/-- C3: the claim says every non-2xx response yields an `"Error:"` string,
but the handlers test `response.ok`, i.e. `status_code < 400`; a 302
response with body `\x7b\x7d` is treated as success and pretty-printed. -/
theorem C3_redirect_status_counterexample :
    ((200 ≤ 302 ∧ 302 ≤ 299) → False) ∧
    (get_topics (constEnv none (HttpOutcome.resp 302 "\x7b\x7d"))).1 = "\x7b\x7d" ∧
    strStarts (get_topics (constEnv none (HttpOutcome.resp 302 "\x7b\x7d"))).1 "Error:" =
      false := by
  exact ⟨by omega, rfl, rfl⟩

/-- C3 (amended): for a response with status at least 400 (`response.ok`
false) no handler raises; the seven read operations return
`"Error: <status>"` and the three write operations return
`"Error: <status> - <body>"`; a 3xx status below 400 is treated as
success. -/
theorem C3_http_error_strings :
    ∀ (u : Option String) (status : Nat) (body : String)
      (tid title url rtype lang code expl diff intro conc exr conn gen : String),
      400 ≤ status →
      ((get_topics (constEnv u (HttpOutcome.resp status body))).1 =
        "Error: " ++ toString status) ∧
      ((get_recent_conversations (constEnv u (HttpOutcome.resp status body))).1 =
        "Error: " ++ toString status) ∧
      ((get_conversation_details (constEnv u (HttpOutcome.resp status body)) tid).1 =
        "Error: " ++ toString status) ∧
      ((get_current_extensions (constEnv u (HttpOutcome.resp status body))).1 =
        "Error: " ++ toString status) ∧
      ((get_student_progress (constEnv u (HttpOutcome.resp status body))).1 =
        "Error: " ++ toString status) ∧
      ((get_student_notes (constEnv u (HttpOutcome.resp status body)) tid).1 =
        "Error: " ++ toString status) ∧
      ((get_lessons (constEnv u (HttpOutcome.resp status body)) tid).1 =
        "Error: " ++ toString status) ∧
      ((add_resource (constEnv u (HttpOutcome.resp status body)) tid title url rtype).1 =
        "Error: " ++ toString status ++ " - " ++ body) ∧
      ((add_code_example (constEnv u (HttpOutcome.resp status body))
          tid title lang code expl).1 = "Error: " ++ toString status ++ " - " ++ body) ∧
      (∀ cv xv nv, loads conc = some cv → loads exr = some xv → loads conn = some nv →
        (add_lesson (constEnv u (HttpOutcome.resp status body))
            tid title diff intro conc expl exr conn gen).1 =
          "Error: " ++ toString status ++ " - " ++ body) := by
  intro u status body tid title url rtype lang code expl diff intro conc exr conn gen hge
  have hnok : ¬ status < 400 := by omega
  refine ⟨?_, ?_, ?_, ?_, ?_, ?_, ?_, ?_, ?_, ?_⟩
  · simp [get_topics, constEnv, hnok]
  · simp [get_recent_conversations, constEnv, hnok]
  · simp [get_conversation_details, constEnv, hnok]
  · simp [get_current_extensions, constEnv, hnok]
  · simp [get_student_progress, constEnv, hnok]
  · simp [get_student_notes, constEnv, hnok]
  · by_cases htid : tid = "" <;> simp [get_lessons, constEnv, hnok, htid]
  · simp [add_resource, constEnv, hnok]
  · simp [add_code_example, constEnv, hnok]
  · intro cv xv nv hc hx hn
    simp [add_lesson, constEnv, hnok, hc, hx, hn]

/-- C3 witness: a concrete 404 response. -/
theorem C3_http_error_strings_witness :
    400 ≤ 404 ∧
    (get_topics (constEnv none (HttpOutcome.resp 404 "nope"))).1 = "Error: " ++ toString 404 ∧
    (add_resource (constEnv none (HttpOutcome.resp 404 "nope")) "t" "ti" "u" "docs").1 =
      "Error: " ++ toString 404 ++ " - " ++ "nope" := by
  refine ⟨by omega, ?_, ?_⟩
  · exact (C3_http_error_strings none 404 "nope" "t" "ti" "u" "docs" "l" "c" "e" "d" "i"
      "[]" "[]" "[]" "g" (by omega)).1
  · exact (C3_http_error_strings none 404 "nope" "t" "ti" "u" "docs" "l" "c" "e" "d" "i"
      "[]" "[]" "[]" "g" (by omega)).2.2.2.2.2.2.2.1

/-- C4: `add_lesson` parses each serialized list argument with
`json.loads` before the POST; `'["a","b"]'` becomes the two-element array
placed under `content.concepts` of the transmitted payload, and an
unparseable list argument — whichever of `concepts`, `exercises` or
`connections` it is — makes the handler return an error string (no
exception escapes, and no request is sent). -/
theorem C4_add_lesson_list_parsing :
    (loads "[\"a\",\"b\"]" = some (Json.arr [Json.str "a", Json.str "b"])) ∧
    (∀ (env : Env) (tid title diff intro conc expl exr conn gen : String) (cv xv nv : Json),
      loads conc = some cv → loads exr = some xv → loads conn = some nv →
      (add_lesson env tid title diff intro conc expl exr conn gen).2 =
        [⟨Method.post, appUrl env ++ "/api/letta/lessons",
          some (lessonPayload tid title diff intro cv expl xv nv gen)⟩]) ∧
    (∀ (env : Env) (tid title diff intro conc expl exr conn gen : String),
      loads conc = none →
      (add_lesson env tid title diff intro conc expl exr conn gen).1 =
          "Error: " ++ jsonErrText ∧
        (add_lesson env tid title diff intro conc expl exr conn gen).2 = []) ∧
    (∀ (env : Env) (tid title diff intro conc expl exr conn gen : String) (cv : Json),
      loads conc = some cv → loads exr = none →
      (add_lesson env tid title diff intro conc expl exr conn gen).1 =
          "Error: " ++ jsonErrText ∧
        (add_lesson env tid title diff intro conc expl exr conn gen).2 = []) ∧
    (∀ (env : Env) (tid title diff intro conc expl exr conn gen : String) (cv xv : Json),
      loads conc = some cv → loads exr = some xv → loads conn = none →
      (add_lesson env tid title diff intro conc expl exr conn gen).1 =
          "Error: " ++ jsonErrText ∧
        (add_lesson env tid title diff intro conc expl exr conn gen).2 = []) ∧
    ((add_lesson (constEnv none (HttpOutcome.resp 200 "\x7b\x7d"))
        "t" "ti" "beginner" "i" "[\"a\",\"b\"]" "e" "[]" "[]" "g").2 =
      [⟨Method.post, "http://localhost:5173/api/letta/lessons",
        some (lessonPayload "t" "ti" "beginner" "i" (Json.arr [Json.str "a", Json.str "b"])
          "e" (Json.arr []) (Json.arr []) "g")⟩]) := by
  refine ⟨rfl, ?_, ?_, ?_, ?_, rfl⟩
  · intro env tid title diff intro conc expl exr conn gen cv xv nv hc hx hn
    cases hr : env.http ⟨Method.post, appUrl env ++ "/api/letta/lessons",
        some (lessonPayload tid title diff intro cv expl xv nv gen)⟩ with
    | resp status body =>
        by_cases hok : status < 400 <;>
          cases hb : loads body <;>
            simp [add_lesson, hc, hx, hn, hr, hok, hb]
    | exn e => simp [add_lesson, hc, hx, hn, hr]
  · intro env tid title diff intro conc expl exr conn gen hc
    exact ⟨by simp [add_lesson, hc], by simp [add_lesson, hc]⟩
  · intro env tid title diff intro conc expl exr conn gen cv hc hx
    exact ⟨by simp [add_lesson, hc, hx], by simp [add_lesson, hc, hx]⟩
  · intro env tid title diff intro conc expl exr conn gen cv xv hc hx hn
    exact ⟨by simp [add_lesson, hc, hx, hn], by simp [add_lesson, hc, hx, hn]⟩

/-- C4 witness: concrete valid arguments, and an invalid argument at each
of the three list positions. -/
theorem C4_add_lesson_list_parsing_witness :
    loads "[\"a\",\"b\"]" = some (Json.arr [Json.str "a", Json.str "b"]) ∧
    loads "not json" = none ∧
    (add_lesson (constEnv none (HttpOutcome.resp 200 "\x7b\x7d"))
        "t" "ti" "d" "i" "[\"a\",\"b\"]" "e" "[]" "[]" "g").2 =
      [⟨Method.post, appUrl (constEnv none (HttpOutcome.resp 200 "\x7b\x7d")) ++
          "/api/letta/lessons",
        some (lessonPayload "t" "ti" "d" "i" (Json.arr [Json.str "a", Json.str "b"]) "e"
          (Json.arr []) (Json.arr []) "g")⟩] ∧
    (add_lesson (constEnv none (HttpOutcome.resp 200 "\x7b\x7d"))
        "t" "ti" "d" "i" "not json" "e" "[]" "[]" "g").1 = "Error: " ++ jsonErrText ∧
    (add_lesson (constEnv none (HttpOutcome.resp 200 "\x7b\x7d"))
        "t" "ti" "d" "i" "[]" "e" "not json" "[]" "g").1 = "Error: " ++ jsonErrText ∧
    (add_lesson (constEnv none (HttpOutcome.resp 200 "\x7b\x7d"))
        "t" "ti" "d" "i" "[]" "e" "[]" "not json" "g").1 = "Error: " ++ jsonErrText := by
  refine ⟨rfl, rfl, ?_, ?_, ?_, ?_⟩
  · exact C4_add_lesson_list_parsing.2.1 (constEnv none (HttpOutcome.resp 200 "\x7b\x7d"))
      "t" "ti" "d" "i" "[\"a\",\"b\"]" "e" "[]" "[]" "g"
      (Json.arr [Json.str "a", Json.str "b"]) (Json.arr []) (Json.arr []) rfl rfl rfl
  · exact (C4_add_lesson_list_parsing.2.2.1 (constEnv none (HttpOutcome.resp 200 "\x7b\x7d"))
      "t" "ti" "d" "i" "not json" "e" "[]" "[]" "g" rfl).1
  · exact (C4_add_lesson_list_parsing.2.2.2.1
      (constEnv none (HttpOutcome.resp 200 "\x7b\x7d"))
      "t" "ti" "d" "i" "[]" "e" "not json" "[]" "g" (Json.arr []) rfl rfl).1
  · exact (C4_add_lesson_list_parsing.2.2.2.2.1
      (constEnv none (HttpOutcome.resp 200 "\x7b\x7d"))
      "t" "ti" "d" "i" "[]" "e" "[]" "not json" "g" (Json.arr []) (Json.arr [])
      rfl rfl rfl).1

/-- C5: on a 2xx progress payload whose topics object lacks the requested
key, `get_student_notes` returns exactly the pretty-printing of
`\x7b"topicId": tid, "notes": "", "hasNotes": false\x7d`, and that string
parses back to that object. -/
theorem C5_missing_topic_notes :
    ∀ (u : Option String) (tid : String) (status : Nat) (body : String) (data : Json)
      (tkvs : List (String × Json)),
      200 ≤ status → status ≤ 299 → loads body = some data →
      dictGet data "topics" (Json.obj []) = some (Json.obj tkvs) →
      assocLast tkvs tid = none →
      (get_student_notes (constEnv u (HttpOutcome.resp status body)) tid).1 =
          dumps (Json.obj [("topicId", Json.str tid), ("notes", Json.str ""),
            ("hasNotes", Json.bool false)]) ∧
        loads (get_student_notes (constEnv u (HttpOutcome.resp status body)) tid).1 =
          some (Json.obj [("topicId", Json.str tid), ("notes", Json.str ""),
            ("hasNotes", Json.bool false)]) := by
  intro u tid status body data tkvs h1 h2 hbody htop habs
  have hok : status < 400 := by omega
  have hres : (get_student_notes (constEnv u (HttpOutcome.resp status body)) tid).1 =
      dumps (Json.obj [("topicId", Json.str tid), ("notes", Json.str ""),
        ("hasNotes", Json.bool false)]) := by
    have h3 : dictGet (Json.obj tkvs) tid (Json.obj []) = some (Json.obj []) := by
      simp [dictGet, habs]
    have h4 : dictGet (Json.obj []) "notes" (Json.str "") = some (Json.str "") := rfl
    have h5 : jsonTruthy (Json.str "") = false := rfl
    simp [get_student_notes, constEnv, hok, hbody, htop, h3, h4, h5]
  exact ⟨hres, by rw [hres, loads_dumps]⟩

/-- C5 witness: progress payload with an empty topics object. -/
theorem C5_missing_topic_notes_witness :
    loads "\x7b\"topics\": \x7b\x7d\x7d" =
        some (Json.obj [("topics", Json.obj [])]) ∧
    dictGet (Json.obj [("topics", Json.obj [])]) "topics" (Json.obj []) =
        some (Json.obj []) ∧
    assocLast ([] : List (String × Json)) "X" = none ∧
    (get_student_notes (constEnv none
        (HttpOutcome.resp 200 "\x7b\"topics\": \x7b\x7d\x7d")) "X").1 =
      dumps (Json.obj [("topicId", Json.str "X"), ("notes", Json.str ""),
        ("hasNotes", Json.bool false)]) := by
  refine ⟨rfl, rfl, rfl, ?_⟩
  exact (C5_missing_topic_notes none "X" 200 "\x7b\"topics\": \x7b\x7d\x7d"
    (Json.obj [("topics", Json.obj [])]) [] (by omega) (by omega) rfl rfl rfl).1


/-- C6: `get_lessons` appends `?topicId=<tid>` to the lessons endpoint
exactly when the topic id is non-empty (Python truthiness of the string),
and omits it for the empty string. -/
theorem C6_get_lessons_query :
    ∀ env : Env,
      ((get_lessons env "").2 = [⟨Method.get, appUrl env ++ "/api/letta/lessons", none⟩]) ∧
      (∀ tid : String, tid ≠ "" → (get_lessons env tid).2 =
        [⟨Method.get, appUrl env ++ "/api/letta/lessons" ++ "?topicId=" ++ tid, none⟩]) ∧
      ((get_lessons (constEnv none (HttpOutcome.resp 200 "[]")) "game-loop").2 =
        [⟨Method.get, "http://localhost:5173/api/letta/lessons?topicId=game-loop", none⟩]) := by
  intro env
  refine ⟨rfl, ?_, rfl⟩
  intro tid htid
  simp [get_lessons, htid]

/-- C6 witness: concrete topic ids. -/
theorem C6_get_lessons_query_witness :
    ("game-loop" ≠ "") ∧
    (get_lessons (constEnv none (HttpOutcome.resp 200 "[]")) "game-loop").2 =
      [⟨Method.get, appUrl (constEnv none (HttpOutcome.resp 200 "[]")) ++
        "/api/letta/lessons" ++ "?topicId=" ++ "game-loop", none⟩] := by
  exact ⟨by decide, (C6_get_lessons_query (constEnv none (HttpOutcome.resp 200 "[]"))).2.1
    "game-loop" (by decide)⟩

/-- C7: every handler resolves the base address once from the
`LEARNING_APP_URL` configuration with default `http://localhost:5173`
(`http://localhost:5999` in the multi-agent setup variant of
`setup_agents.py`), and each request URL is that base followed by the
operation's endpoint path (plus its argument-derived query suffix). -/
theorem C7_base_url_resolution :
    (∀ (u : Option String) (h : Request → HttpOutcome),
      appUrl ⟨u, h⟩ = u.getD "http://localhost:5173") ∧
    (∀ v : Option String, multiAgentAppUrl v = v.getD "http://localhost:5999") ∧
    (∀ env : Env,
      ((get_topics env).2.map (fun r => r.url) =
        [appUrl env ++ "/api/letta?action=topics"]) ∧
      ((get_recent_conversations env).2.map (fun r => r.url) =
        [appUrl env ++ "/api/letta?action=notebooks"]) ∧
      (∀ tid, (get_conversation_details env tid).2.map (fun r => r.url) =
        [appUrl env ++ "/api/letta?action=notebook&topicId=" ++ tid]) ∧
      ((get_current_extensions env).2.map (fun r => r.url) =
        [appUrl env ++ "/api/letta?action=extensions"]) ∧
      ((get_student_progress env).2.map (fun r => r.url) =
        [appUrl env ++ "/api/progress"]) ∧
      (∀ tid, (get_student_notes env tid).2.map (fun r => r.url) =
        [appUrl env ++ "/api/progress"]) ∧
      (∀ tid title url rtype, (add_resource env tid title url rtype).2.map (fun r => r.url) =
        [appUrl env ++ "/api/letta"]) ∧
      (∀ tid title lang code expl,
        (add_code_example env tid title lang code expl).2.map (fun r => r.url) =
          [appUrl env ++ "/api/letta"]) ∧
      (∀ tid title diff intro conc expl exr conn gen cv xv nv,
        loads conc = some cv → loads exr = some xv → loads conn = some nv →
        (add_lesson env tid title diff intro conc expl exr conn gen).2.map (fun r => r.url) =
          [appUrl env ++ "/api/letta/lessons"]) ∧
      ((get_lessons env "").2.map (fun r => r.url) =
        [appUrl env ++ "/api/letta/lessons"]) ∧
      (∀ tid, tid ≠ "" → (get_lessons env tid).2.map (fun r => r.url) =
        [appUrl env ++ "/api/letta/lessons" ++ "?topicId=" ++ tid])) := by
  refine ⟨fun u h => rfl, fun v => rfl, ?_⟩
  intro env
  refine ⟨rfl, rfl, fun tid => rfl, rfl, rfl, fun tid => rfl, fun _ _ _ _ => rfl,
    fun _ _ _ _ _ => rfl, ?_, rfl, ?_⟩
  · intro tid title diff intro2 conc expl exr conn gen cv xv nv hc hx hn
    simp [add_lesson, hc, hx, hn]
  · intro tid htid
    simp [get_lessons, htid]

/-- C7 witness: unset and set configuration, and a concrete URL. -/
theorem C7_base_url_resolution_witness :
    appUrl ⟨none, fun _ => HttpOutcome.exn "x"⟩ =
        (none : Option String).getD "http://localhost:5173" ∧
    multiAgentAppUrl none = (none : Option String).getD "http://localhost:5999" ∧
    (get_topics (constEnv (some "http://h:9") (HttpOutcome.exn "x"))).2.map (fun r => r.url) =
      [appUrl (constEnv (some "http://h:9") (HttpOutcome.exn "x")) ++
        "/api/letta?action=topics"] := by
  exact ⟨C7_base_url_resolution.1 none (fun _ => HttpOutcome.exn "x"),
    C7_base_url_resolution.2.1 none,
    (C7_base_url_resolution.2.2 (constEnv (some "http://h:9") (HttpOutcome.exn "x"))).1⟩

/-- C8: the claim says every one of the ten operations performs exactly one
HTTP request per invocation; when a list argument of `add_lesson` fails to
parse, the `json.loads` call raises before `requests.post` is reached and
the invocation performs no request at all. -/
theorem C8_add_lesson_parse_failure_counterexample :
    (add_lesson (constEnv none (HttpOutcome.resp 200 "\x7b\x7d"))
        "t" "ti" "d" "i" "not json" "e" "[]" "[]" "g").2 = [] ∧
    ((add_lesson (constEnv none (HttpOutcome.resp 200 "\x7b\x7d"))
        "t" "ti" "d" "i" "not json" "e" "[]" "[]" "g").2.length = 1 → False) := by
  exact ⟨rfl, by decide⟩

/-- C8 (amended): every operation performs at most one request and never a
retry: each of the seven reads performs exactly one GET, `add_resource` and
`add_code_example` exactly one POST, and `add_lesson` exactly one POST when
its three list arguments parse and zero requests when any of `concepts`,
`exercises` or `connections` fails to parse; no write handler issues any
read before its POST. -/
theorem C8_single_request_per_call :
    ∀ env : Env,
      ((get_topics env).2.map (fun r => r.method) = [Method.get]) ∧
      ((get_recent_conversations env).2.map (fun r => r.method) = [Method.get]) ∧
      (∀ tid, (get_conversation_details env tid).2.map (fun r => r.method) = [Method.get]) ∧
      ((get_current_extensions env).2.map (fun r => r.method) = [Method.get]) ∧
      ((get_student_progress env).2.map (fun r => r.method) = [Method.get]) ∧
      (∀ tid, (get_student_notes env tid).2.map (fun r => r.method) = [Method.get]) ∧
      (∀ tid, (get_lessons env tid).2.map (fun r => r.method) = [Method.get]) ∧
      (∀ tid title url rtype,
        (add_resource env tid title url rtype).2.map (fun r => r.method) = [Method.post]) ∧
      (∀ tid title lang code expl,
        (add_code_example env tid title lang code expl).2.map (fun r => r.method) =
          [Method.post]) ∧
      (∀ tid title diff intro conc expl exr conn gen,
        (∀ cv xv nv, loads conc = some cv → loads exr = some xv → loads conn = some nv →
          (add_lesson env tid title diff intro conc expl exr conn gen).2.map
            (fun r => r.method) = [Method.post]) ∧
        (loads conc = none →
          (add_lesson env tid title diff intro conc expl exr conn gen).2 = []) ∧
        (∀ cv, loads conc = some cv → loads exr = none →
          (add_lesson env tid title diff intro conc expl exr conn gen).2 = []) ∧
        (∀ cv xv, loads conc = some cv → loads exr = some xv → loads conn = none →
          (add_lesson env tid title diff intro conc expl exr conn gen).2 = [])) := by
  intro env
  refine ⟨rfl, rfl, fun tid => rfl, rfl, rfl, fun tid => rfl, ?_, fun _ _ _ _ => rfl,
    fun _ _ _ _ _ => rfl, ?_⟩
  · intro tid
    by_cases htid : tid = "" <;> simp [get_lessons, htid]
  · intro tid title diff intro2 conc expl exr conn gen
    refine ⟨?_, ?_, ?_, ?_⟩
    · intro cv xv nv hc hx hn
      simp [add_lesson, hc, hx, hn]
    · intro hc
      simp [add_lesson, hc]
    · intro cv hc hx
      simp [add_lesson, hc, hx]
    · intro cv xv hc hx hn
      simp [add_lesson, hc, hx, hn]

/-- C8 witness: a concrete GET, POST, and a failed-parse invocation at
each of the three list-argument positions. -/
theorem C8_single_request_per_call_witness :
    (get_topics (constEnv none (HttpOutcome.resp 200 "[]"))).2.map (fun r => r.method) =
        [Method.get] ∧
    (add_resource (constEnv none (HttpOutcome.resp 200 "[]")) "t" "ti" "u" "docs").2.map
        (fun r => r.method) = [Method.post] ∧
    loads "not json" = none ∧
    (add_lesson (constEnv none (HttpOutcome.resp 200 "[]"))
        "t" "ti" "d" "i" "not json" "e" "[]" "[]" "g").2 = [] ∧
    (add_lesson (constEnv none (HttpOutcome.resp 200 "[]"))
        "t" "ti" "d" "i" "[]" "e" "not json" "[]" "g").2 = [] ∧
    (add_lesson (constEnv none (HttpOutcome.resp 200 "[]"))
        "t" "ti" "d" "i" "[]" "e" "[]" "not json" "g").2 = [] := by
  refine ⟨(C8_single_request_per_call (constEnv none (HttpOutcome.resp 200 "[]"))).1,
    (C8_single_request_per_call (constEnv none (HttpOutcome.resp 200 "[]"))).2.2.2.2.2.2.2.1
      "t" "ti" "u" "docs", rfl,
    ((C8_single_request_per_call (constEnv none (HttpOutcome.resp 200 "[]"))).2.2.2.2.2.2.2.2.2
      "t" "ti" "d" "i" "not json" "e" "[]" "[]" "g").2.1 rfl,
    ((C8_single_request_per_call (constEnv none (HttpOutcome.resp 200 "[]"))).2.2.2.2.2.2.2.2.2
      "t" "ti" "d" "i" "[]" "e" "not json" "[]" "g").2.2.1 (Json.arr []) rfl rfl,
    ((C8_single_request_per_call (constEnv none (HttpOutcome.resp 200 "[]"))).2.2.2.2.2.2.2.2.2
      "t" "ti" "d" "i" "[]" "e" "[]" "not json" "g").2.2.2 (Json.arr []) (Json.arr [])
      rfl rfl rfl⟩


theorem pyStrip_eq_empty_iff (s : String) :
    pyStrip s = "" ↔ ∀ c ∈ s.data, isPyWs c = true := by
  have hmk : ∀ l : List Char, String.mk l = "" ↔ l = [] :=
    fun l => ⟨fun h => congrArg String.data h, fun h => by rw [h]⟩
  rw [pyStrip, hmk, List.reverse_eq_nil_iff, List.dropWhile_eq_nil_iff]
  constructor
  · intro h c hc
    have hc2 : c ∈ s.data.takeWhile isPyWs ∨ c ∈ s.data.dropWhile isPyWs :=
      List.mem_append.mp (by rw [List.takeWhile_append_dropWhile]; exact hc)
    rcases hc2 with h1 | h1
    · exact List.mem_takeWhile_imp h1
    · exact h c (List.mem_reverse.mpr h1)
  · intro h c hc
    exact h c ((List.dropWhile_sublist isPyWs).mem (List.mem_reverse.mp hc))

theorem pyStrip_decide_any (sn : String) :
    (!decide (pyStrip sn = "")) = sn.data.any fun c => !(isPyWs c) := by
  cases h : sn.data.any fun c => !(isPyWs c) with
  | true =>
      obtain ⟨c, hc, hcw⟩ := List.any_eq_true.mp h
      have : pyStrip sn ≠ "" := fun he =>
        (by simpa using hcw : ¬ isPyWs c = true) ((pyStrip_eq_empty_iff sn).mp he c hc)
      simpa using this
  | false =>
      have hall : ∀ c ∈ sn.data, isPyWs c = true := by
        intro c hc
        by_contra hne
        exact (List.any_eq_false.mp h) c hc (by simpa using hne)
      have : pyStrip sn = "" := (pyStrip_eq_empty_iff sn).mpr hall
      simpa using this

/-- C9: in the object returned by `get_student_notes` on a 2xx progress
payload, `hasNotes` is true exactly when the stored notes value is a string
containing a non-whitespace character; a falsy notes value (empty or absent
string, `null`, `false`, `0`, empty array or object) yields `hasNotes`
false and is echoed verbatim in the `notes` field. -/
theorem C9_has_notes_semantics :
    ∀ (u : Option String) (tid : String) (status : Nat) (body : String) (data tv tp nv : Json),
      200 ≤ status → status ≤ 299 → loads body = some data →
      dictGet data "topics" (Json.obj []) = some tv →
      dictGet tv tid (Json.obj []) = some tp →
      dictGet tp "notes" (Json.str "") = some nv →
      ((∀ sn, nv = Json.str sn →
        (get_student_notes (constEnv u (HttpOutcome.resp status body)) tid).1 =
          dumps (Json.obj [("topicId", Json.str tid), ("notes", Json.str sn),
            ("hasNotes", Json.bool (sn.data.any fun c => !(isPyWs c)))])) ∧
       (jsonTruthy nv = false →
        (get_student_notes (constEnv u (HttpOutcome.resp status body)) tid).1 =
          dumps (Json.obj [("topicId", Json.str tid), ("notes", nv),
            ("hasNotes", Json.bool false)]))) := by
  intro u tid status body data tv tp nv h1 h2 hbody htop htv hnotes
  have hok : status < 400 := by omega
  constructor
  · intro sn hsn
    subst hsn
    by_cases hemp : sn = ""
    · subst hemp
      have hany : (("" : String).data.any fun c => !(isPyWs c)) = false := rfl
      simp [get_student_notes, constEnv, hok, hbody, htop, htv, hnotes, jsonTruthy, hany]
    · have htr : jsonTruthy (Json.str sn) = true := by simp [jsonTruthy, hemp]
      simp [get_student_notes, constEnv, hok, hbody, htop, htv, hnotes, htr]
      rw [pyStrip_decide_any]
  · intro hfal
    rcases hnv : nv with _ | b | n | sn | xs | kvs
    all_goals subst hnv
    all_goals simp [get_student_notes, constEnv, hok, hbody, htop, htv, hnotes, hfal]

/-- C9 witness: whitespace-only notes yield `hasNotes = false`; the falsy
`null` notes value is echoed verbatim. -/
theorem C9_has_notes_semantics_witness :
    loads "\x7b\"topics\": \x7b\"gl\": \x7b\"notes\": \"  \"\x7d\x7d\x7d" =
        some (Json.obj [("topics", Json.obj [("gl",
          Json.obj [("notes", Json.str "  ")])])]) ∧
    (get_student_notes (constEnv none (HttpOutcome.resp 200
        "\x7b\"topics\": \x7b\"gl\": \x7b\"notes\": \"  \"\x7d\x7d\x7d")) "gl").1 =
      dumps (Json.obj [("topicId", Json.str "gl"), ("notes", Json.str "  "),
        ("hasNotes", Json.bool (("  " : String).data.any fun c => !(isPyWs c)))]) ∧
    (("  " : String).data.any fun c => !(isPyWs c)) = false := by
  refine ⟨rfl, ?_, rfl⟩
  exact (C9_has_notes_semantics none "gl" 200
    "\x7b\"topics\": \x7b\"gl\": \x7b\"notes\": \"  \"\x7d\x7d\x7d"
    (Json.obj [("topics", Json.obj [("gl", Json.obj [("notes", Json.str "  ")])])])
    (Json.obj [("gl", Json.obj [("notes", Json.str "  ")])])
    (Json.obj [("notes", Json.str "  ")]) (Json.str "  ")
    (by omega) (by omega) rfl rfl rfl rfl).1 "  " rfl

/-- C10: `get_conversation_details` (and `get_lessons` with a non-empty
topic id) builds its URL by plain string concatenation of the base address,
the fixed prefix and the raw topic id; no character of the topic id is
escaped, so every character of the topic id (including `&` and `#`) appears
verbatim in the request URL. -/
theorem C10_url_no_escaping :
    ∀ (env : Env) (tid : String),
      ((get_conversation_details env tid).2 =
        [⟨Method.get, appUrl env ++ "/api/letta?action=notebook&topicId=" ++ tid, none⟩]) ∧
      (tid ≠ "" → (get_lessons env tid).2 =
        [⟨Method.get, appUrl env ++ "/api/letta/lessons" ++ "?topicId=" ++ tid, none⟩]) ∧
      (∀ c, c ∈ tid.data →
        c ∈ (appUrl env ++ "/api/letta?action=notebook&topicId=" ++ tid).data) ∧
      ((get_conversation_details (constEnv none (HttpOutcome.resp 200 "[]")) "a&b#c").2 =
        [⟨Method.get, "http://localhost:5173/api/letta?action=notebook&topicId=a&b#c",
          none⟩]) := by
  intro env tid
  refine ⟨rfl, ?_, ?_, rfl⟩
  · intro htid
    simp [get_lessons, htid]
  · intro c hc
    rw [String.data_append]
    exact List.mem_append.mpr (Or.inr hc)

/-- C10 witness: a topic id containing reserved URL characters. -/
theorem C10_url_no_escaping_witness :
    ("a&b#c" ≠ "") ∧
    (get_lessons (constEnv none (HttpOutcome.resp 200 "[]")) "a&b#c").2 =
      [⟨Method.get, appUrl (constEnv none (HttpOutcome.resp 200 "[]")) ++
        "/api/letta/lessons" ++ "?topicId=" ++ "a&b#c", none⟩] ∧
    ('&' ∈ ("a&b#c" : String).data ∧
      '&' ∈ (appUrl (constEnv none (HttpOutcome.resp 200 "[]")) ++
        "/api/letta?action=notebook&topicId=" ++ "a&b#c").data) := by
  refine ⟨by decide, ?_, by decide, ?_⟩
  · exact ((C10_url_no_escaping (constEnv none (HttpOutcome.resp 200 "[]")) "a&b#c").2.1
      (by decide))
  · exact (C10_url_no_escaping (constEnv none (HttpOutcome.resp 200 "[]")) "a&b#c").2.2.1
      '&' (by decide)

end GodotApp
